import Mathlib

/-! Shallow embedding of the options price-history store implemented in
`src/data/options_history.py`: snapshot storage, earnings-calendar
management, rolling-average calculation, price-elevation comparison,
retention cleanup and the bucket-field backfill migrations.

Conventions of the embedding:
* Python `float` prices are modelled as exact rationals (`ℚ`).
* Instants (`datetime`) are integer minutes counted from an epoch that
  falls on a Monday at 00:00; calendar dates (`date`) are integer day
  numbers on the same epoch, so `DATE(ts)` is flooring division by 1440
  and Python's `weekday()` is the day number modulo 7 (0 = Monday).
* Each SQLite table is a list of row structures; `INSERT OR REPLACE`
  removes the rows colliding with the inserted row on the table's UNIQUE
  key and appends the fresh row; `SELECT ... ORDER BY` is modelled with a
  stable insertion sort; `SELECT DISTINCT` is `List.dedup`.
* SQL `NULL` is `Option.none`; Python truthiness on a nullable float
  (`if row['avg_ask_price']:`) is "not `none` and not zero".
-/

/-- Module constant `HISTORY_WEEKS = 10` (lookback window in weeks). -/
def HISTORY_WEEKS : ℤ := 10

/-- Module constant `PRICE_ELEVATION_THRESHOLD = 0.34`. -/
def PRICE_ELEVATION_THRESHOLD : ℚ := 34/100

/-- Module constant `PRICE_ELEVATION_BOOST = 0.3`. -/
def PRICE_ELEVATION_BOOST : ℚ := 3/10

/-- Minutes in a day; timestamps are minutes since a Monday-00:00 epoch. -/
def minutesPerDay : ℤ := 1440

/-- `DATE(timestamp)`: the day number containing a timestamp. -/
def dateOf (t : ℤ) : ℤ := t.fdiv minutesPerDay

/-- Python `date.weekday()`: 0 = Monday .. 6 = Sunday. -/
def date_weekday (d : ℤ) : ℤ := d % 7

/-- Python `datetime.weekday()` of a timestamp. -/
def dt_weekday (t : ℤ) : ℤ := date_weekday (dateOf t)

/-- SQLite `strftime('%w', timestamp)`: 0 = Sunday .. 6 = Saturday. -/
def strftime_w (t : ℤ) : ℤ := (dateOf t + 1) % 7

/-- Hour-of-day of a timestamp. -/
def hourOf (t : ℤ) : ℤ := (t % minutesPerDay).fdiv 60

/-- Minute-of-hour of a timestamp. -/
def minuteOf (t : ℤ) : ℤ := t % 60

/-- Python `f"{n:02d}"` for the nonnegative values produced here. -/
def two_digit (n : ℤ) : String := (if n < 10 then "0" else "") ++ toString n.toNat

/-- The 5-minute time-slot label `f"{hour:02d}:{minute_slot:02d}"` with the
minute floored to a multiple of 5 (`(minute // 5) * 5`). -/
def time_slot_of (t : ℤ) : String :=
  two_digit (hourOf t) ++ ":" ++ two_digit ((minuteOf t).fdiv 5 * 5)

/-- Python `round` on an exact value: nearest integer, ties to even. -/
def pyRound (q : ℚ) : ℤ :=
  let f := ⌊q⌋
  let r := q - f
  if r < 1/2 then f
  else if 1/2 < r then f + 1
  else if f % 2 = 0 then f else f + 1

/-- `round_to_half` from `OptionsDataCollector.calculate_strike_distance`:
round to the nearest 0.50. -/
def round_to_half (value : ℚ) : ℚ := pyRound (value * 2) / 2

/-- `OptionsDataCollector.calculate_strike_distance`. -/
def calculate_strike_distance (strike stock_price : ℚ) (option_type : String) : ℚ :=
  if option_type = "CALL" then
    max (1/2) (round_to_half (strike - stock_price))
  else
    -(max (1/2) (round_to_half (stock_price - strike)))

/-- A row of the `option_snapshots` table. -/
structure SnapRow where
  id : ℕ
  timestamp : ℤ
  symbol : String
  stock_price : ℚ
  expiration_date : String
  dte : ℤ
  option_type : String
  strike : ℚ
  strike_distance : ℚ
  mid_price : Option ℚ
  last_price : Option ℚ
  bid : Option ℚ
  ask : Option ℚ
  volume : Option ℤ
  open_interest : Option ℤ
  day_of_week : Option ℤ
  time_slot : Option String
  ordinal_position : Option ℤ
deriving DecidableEq, Repr

/-- The snapshot dict passed to `store_snapshot` (all stored fields, no id). -/
structure OptionSnapshot where
  timestamp : ℤ
  symbol : String
  stock_price : ℚ
  expiration_date : String
  dte : ℤ
  option_type : String
  strike : ℚ
  strike_distance : ℚ
  mid_price : Option ℚ
  last_price : Option ℚ
  bid : Option ℚ
  ask : Option ℚ
  volume : Option ℤ
  open_interest : Option ℤ
  day_of_week : Option ℤ
  time_slot : Option String
  ordinal_position : Option ℤ
deriving DecidableEq, Repr

/-- A row of the `weekly_averages` table (with the columns added by the
`ALTER TABLE` statements in `_init_db`). -/
structure AvgRow where
  calculated_at : ℤ
  symbol : String
  option_type : String
  strike_distance : ℚ
  dte : ℤ
  avg_mid_price : Option ℚ
  sample_count : ℕ
  min_price : Option ℚ
  max_price : Option ℚ
  avg_ask_price : Option ℚ
  day_of_week : Option ℤ
  time_slot : Option String
  ordinal_position : Option ℤ
deriving DecidableEq, Repr

/-- A row of the `earnings_calendar` table. -/
structure EarnRow where
  symbol : String
  earnings_date : ℤ
  week_start : ℤ
  week_end : ℤ
  source : String
  created_at : ℤ
deriving DecidableEq, Repr

/-- The persistent state of the SQLite database (the tables the claims
touch), plus the autoincrement counter for `option_snapshots.id`. -/
structure DBState where
  next_id : ℕ
  option_snapshots : List SnapRow
  weekly_averages : List AvgRow
  earnings_calendar : List EarnRow
deriving DecidableEq, Repr

/-- Natural key of `option_snapshots`:
`UNIQUE (timestamp, symbol, expiration_date, strike, option_type)`. -/
def snap_key (r : SnapRow) : ℤ × String × String × ℚ × String :=
  (r.timestamp, r.symbol, r.expiration_date, r.strike, r.option_type)

/-- Natural key of a snapshot dict, aligned with `snap_key`. -/
def snapshot_key (s : OptionSnapshot) : ℤ × String × String × ℚ × String :=
  (s.timestamp, s.symbol, s.expiration_date, s.strike, s.option_type)

/-- The table row written for a snapshot dict with a fresh id. -/
def snapRowOf (id : ℕ) (s : OptionSnapshot) : SnapRow :=
  { id := id, timestamp := s.timestamp, symbol := s.symbol,
    stock_price := s.stock_price, expiration_date := s.expiration_date,
    dte := s.dte, option_type := s.option_type, strike := s.strike,
    strike_distance := s.strike_distance, mid_price := s.mid_price,
    last_price := s.last_price, bid := s.bid, ask := s.ask,
    volume := s.volume, open_interest := s.open_interest,
    day_of_week := s.day_of_week, time_slot := s.time_slot,
    ordinal_position := s.ordinal_position }

/-- The stored field values of a row (everything except the rowid). -/
def SnapRow.fields (r : SnapRow) : OptionSnapshot :=
  { timestamp := r.timestamp, symbol := r.symbol, stock_price := r.stock_price,
    expiration_date := r.expiration_date, dte := r.dte,
    option_type := r.option_type, strike := r.strike,
    strike_distance := r.strike_distance, mid_price := r.mid_price,
    last_price := r.last_price, bid := r.bid, ask := r.ask,
    volume := r.volume, open_interest := r.open_interest,
    day_of_week := r.day_of_week, time_slot := r.time_slot,
    ordinal_position := r.ordinal_position }

/-- `OptionsHistoryDB.store_snapshot`: `INSERT OR REPLACE` on the natural
key of `option_snapshots`; always succeeds. -/
def store_snapshot (st : DBState) (s : OptionSnapshot) : Bool × DBState :=
  (true,
   { st with
     next_id := st.next_id + 1,
     option_snapshots :=
       st.option_snapshots.filter (fun r => !(decide (snap_key r = snapshot_key s))) ++
       [snapRowOf st.next_id s] })

/-- `SELECT * FROM option_snapshots` filtered by natural key. -/
def lookup_snapshot (st : DBState) (k : ℤ × String × String × ℚ × String) : List SnapRow :=
  st.option_snapshots.filter (fun r => decide (snap_key r = k))

/-- `EarningsCalendarManager.calculate_earnings_week`: Monday and Friday of
the week containing the earnings date. -/
def calculate_earnings_week (earnings_date : ℤ) : ℤ × ℤ :=
  let days_since_monday := date_weekday earnings_date
  let week_start := earnings_date - days_since_monday
  (week_start, week_start + 4)

/-- `EarningsCalendarManager.store_earnings_date`: `INSERT OR REPLACE` on
`UNIQUE (symbol, earnings_date)`. -/
def store_earnings_date (st : DBState) (symbol : String) (earnings_date : ℤ)
    (source : String) (now : ℤ) : Bool × DBState :=
  let w := calculate_earnings_week earnings_date
  (true,
   { st with
     earnings_calendar :=
       st.earnings_calendar.filter
         (fun r => !(decide (r.symbol = symbol ∧ r.earnings_date = earnings_date))) ++
       [{ symbol := symbol, earnings_date := earnings_date, week_start := w.1,
          week_end := w.2, source := source, created_at := now }] })

/-- `EarningsCalendarManager.get_earnings_weeks`: stored weeks with
`week_end >= today - weeks_back` ordered by `week_start`. -/
def get_earnings_weeks (st : DBState) (symbol : String) (weeks_back : ℤ)
    (today : ℤ) : List (ℤ × ℤ) :=
  let cutoff := today - weeks_back * 7
  let rows := st.earnings_calendar.filter
    (fun r => decide (r.symbol = symbol ∧ cutoff ≤ r.week_end))
  (rows.insertionSort (fun a b => a.week_start ≤ b.week_start)).map
    (fun r => (r.week_start, r.week_end))

/-- The conjunction of `NOT (DATE(timestamp) BETWEEN week_start AND week_end)`
clauses, negated: the date lies inside some listed earnings week. -/
def in_earnings_week (weeks : List (ℤ × ℤ)) (d : ℤ) : Bool :=
  weeks.any (fun w => decide (w.1 ≤ d ∧ d ≤ w.2))

/-- The grouping key of `calculate_and_store_averages`:
`GROUP BY day_of_week, time_slot, option_type, ordinal_position, dte`. -/
structure BucketKey where
  day_of_week : Option ℤ
  time_slot : Option String
  option_type : String
  ordinal_position : Option ℤ
  dte : ℤ
deriving DecidableEq, Repr

/-- The bucket key carried by a snapshot row. -/
def SnapRow.bucket (r : SnapRow) : BucketKey :=
  ⟨r.day_of_week, r.time_slot, r.option_type, r.ordinal_position, r.dte⟩

/-- `ask IS NOT NULL AND ask > 0`. -/
def pos_ask : Option ℚ → Bool
  | some a => decide (0 < a)
  | none => false

/-- The `WHERE` clause of the averaging query in
`calculate_and_store_averages`: right symbol, inside the lookback window,
positive non-null ask, all bucket fields non-null, and the capture date not
inside any earnings week of the lookback horizon. -/
def calc_qualifying (st : DBState) (symbol : String) (now : ℤ) : List SnapRow :=
  let six_weeks_ago := now - HISTORY_WEEKS * 7 * minutesPerDay
  let weeks := get_earnings_weeks st symbol HISTORY_WEEKS (dateOf now)
  st.option_snapshots.filter (fun r =>
    decide (r.symbol = symbol) && decide (six_weeks_ago ≤ r.timestamp) &&
    pos_ask r.ask && r.day_of_week.isSome && r.time_slot.isSome &&
    r.ordinal_position.isSome && !(in_earnings_week weeks (dateOf r.timestamp)))

/-- SQL `AVG` over a column: `NULL` on the empty bag, else the arithmetic
mean. -/
def sqlAvg (l : List ℚ) : Option ℚ :=
  if l.length = 0 then none else some (l.sum / (l.length : ℚ))

/-- The distinct group keys of the averaging query, i.e. its `GROUP BY`. -/
def calc_group_keys (st : DBState) (symbol : String) (now : ℤ) : List BucketKey :=
  ((calc_qualifying st symbol now).map SnapRow.bucket).dedup

/-- One aggregated output row of the averaging query for a group, as it is
inserted (the `strike_distance` column is hard-coded to 0). -/
def calc_record (calculated_at : ℤ) (symbol : String) (rows : List SnapRow)
    (k : BucketKey) : AvgRow :=
  let asks := rows.filterMap (fun r => r.ask)
  let mids := rows.filterMap (fun r => r.mid_price)
  { calculated_at := calculated_at, symbol := symbol,
    option_type := k.option_type, strike_distance := 0, dte := k.dte,
    avg_mid_price := sqlAvg mids, sample_count := rows.length,
    min_price := asks.min?, max_price := asks.max?,
    avg_ask_price := sqlAvg asks,
    day_of_week := k.day_of_week, time_slot := k.time_slot,
    ordinal_position := k.ordinal_position }

/-- All aggregated rows of one run of the averaging query, in group order. -/
def calc_records (st : DBState) (symbol : String) (now : ℤ) : List AvgRow :=
  let qualifying := calc_qualifying st symbol now
  (calc_group_keys st symbol now).map (fun k =>
    calc_record now symbol
      (qualifying.filter (fun r => decide (SnapRow.bucket r = k))) k)

/-- UNIQUE key of `weekly_averages` as created:
`(calculated_at, symbol, option_type, strike_distance, dte)` — the columns
added later by `ALTER TABLE` are not part of it. -/
def avg_key (r : AvgRow) : ℤ × String × String × ℚ × ℤ :=
  (r.calculated_at, r.symbol, r.option_type, r.strike_distance, r.dte)

/-- `INSERT OR REPLACE INTO weekly_averages`. -/
def insert_avg (rows : List AvgRow) (r : AvgRow) : List AvgRow :=
  rows.filter (fun x => !(decide (avg_key x = avg_key r))) ++ [r]

/-- `OptionsHistoryDB.calculate_and_store_averages`. A group whose
`AVG(mid_price)` is `NULL` violates the `NOT NULL` constraint on
`avg_mid_price`; the raised error is caught, the connection is closed
without commit (rolling every insert of the run back) and `False` is
returned. -/
def calculate_and_store_averages (st : DBState) (symbol : String) (now : ℤ) :
    Bool × DBState :=
  let records := calc_records st symbol now
  if records.any (fun r => r.avg_mid_price.isNone) then (false, st)
  else
    (true, { st with weekly_averages := records.foldl insert_avg st.weekly_averages })

/-- Python truthiness of a nullable float column value. -/
def truthy : Option ℚ → Bool
  | some v => decide (v ≠ 0)
  | none => false

/-- The precomputed-average lookup of `get_average_price`:
rows matching the exact bucket. -/
def avg_matches (st : DBState) (option_type : String) (ordinal_position dte : ℤ)
    (day_of_week : ℤ) (time_slot : String) (symbol : String) : List AvgRow :=
  st.weekly_averages.filter (fun r =>
    decide (r.symbol = symbol ∧ r.day_of_week = some day_of_week ∧
            r.time_slot = some time_slot ∧ r.option_type = option_type ∧
            r.ordinal_position = some ordinal_position ∧ r.dte = dte))

/-- `ORDER BY calculated_at DESC LIMIT 1` followed by `fetchone()`: the
first scanned row with maximal `calculated_at`. -/
def latest_row (l : List AvgRow) : Option AvgRow :=
  l.foldl (fun acc r =>
    match acc with
    | none => some r
    | some b => if b.calculated_at < r.calculated_at then some r else acc) none

/-- The raw-snapshot fallback aggregation of `get_average_price`: mean of
`ask` over the bucket's qualifying snapshots in the lookback window with the
earnings-week exclusion, `None` when the average is `NULL` or falsy. -/
def raw_average (st : DBState) (option_type : String) (ordinal_position dte : ℤ)
    (day_of_week : ℤ) (time_slot : String) (symbol : String) (now : ℤ) : Option ℚ :=
  let weeks := get_earnings_weeks st symbol HISTORY_WEEKS (dateOf now)
  let six_weeks_ago := now - HISTORY_WEEKS * 7 * minutesPerDay
  let snaps := st.option_snapshots.filter (fun r =>
    decide (r.symbol = symbol ∧ r.day_of_week = some day_of_week ∧
            r.time_slot = some time_slot ∧ r.option_type = option_type ∧
            r.ordinal_position = some ordinal_position ∧ r.dte = dte ∧
            six_weeks_ago ≤ r.timestamp) &&
    pos_ask r.ask && !(in_earnings_week weeks (dateOf r.timestamp)))
  let avg := sqlAvg (snaps.filterMap (fun r => r.ask))
  if truthy avg then avg else none

/-- `OptionsHistoryDB.get_average_price` with the day/time slot passed
explicitly (the auto-detection from `datetime.now()` happens at callers). -/
def get_average_price (st : DBState) (option_type : String) (ordinal_position dte : ℤ)
    (day_of_week : ℤ) (time_slot : String) (symbol : String) (now : ℤ) : Option ℚ :=
  match latest_row (avg_matches st option_type ordinal_position dte day_of_week time_slot symbol) with
  | some row =>
      if truthy row.avg_ask_price then row.avg_ask_price
      else if truthy row.avg_mid_price then row.avg_mid_price
      else raw_average st option_type ordinal_position dte day_of_week time_slot symbol now
  | none => raw_average st option_type ordinal_position dte day_of_week time_slot symbol now

/-- The dict returned by `PriceComparisonChecker.check_price_elevation`. -/
structure PriceComparisonResult where
  is_elevated : Bool
  current_price : ℚ
  avg_price : Option ℚ
  elevation_pct : Option ℚ
  confidence_boost : ℚ
  has_historical_data : Bool
  day_of_week : ℤ
  time_slot : String
  ordinal_position : ℤ
deriving DecidableEq, Repr

/-- The degraded no-historical-data result of `check_price_elevation`. -/
def no_history_result (current_price : ℚ) (day_of_week : ℤ) (time_slot : String)
    (ordinal_position : ℤ) : PriceComparisonResult :=
  { is_elevated := false, current_price := current_price, avg_price := none,
    elevation_pct := none, confidence_boost := 0, has_historical_data := false,
    day_of_week := day_of_week, time_slot := time_slot,
    ordinal_position := ordinal_position }

/-- `PriceComparisonChecker.check_price_elevation` with the day/time slot
passed explicitly. -/
def check_price_elevation (st : DBState) (current_price : ℚ) (option_type : String)
    (ordinal_position dte : ℤ) (day_of_week : ℤ) (time_slot : String)
    (symbol : String) (now : ℤ) : PriceComparisonResult :=
  match get_average_price st option_type ordinal_position dte day_of_week time_slot symbol now with
  | none => no_history_result current_price day_of_week time_slot ordinal_position
  | some avg_price =>
    if avg_price ≤ 0 then
      no_history_result current_price day_of_week time_slot ordinal_position
    else if current_price ≤ 0 then
      { is_elevated := false, current_price := current_price,
        avg_price := some avg_price, elevation_pct := none,
        confidence_boost := 0, has_historical_data := true,
        day_of_week := day_of_week, time_slot := time_slot,
        ordinal_position := ordinal_position }
    else
      let elevation_pct := (current_price - avg_price) / avg_price
      let is_elevated := decide (PRICE_ELEVATION_THRESHOLD ≤ elevation_pct)
      { is_elevated := is_elevated, current_price := current_price,
        avg_price := some avg_price, elevation_pct := some elevation_pct,
        confidence_boost := if is_elevated then PRICE_ELEVATION_BOOST else 0,
        has_historical_data := true, day_of_week := day_of_week,
        time_slot := time_slot, ordinal_position := ordinal_position }

/-- One strike dict passed to `evaluate_strikes` (the fields it reads). -/
structure StrikeData where
  strike : ℚ
  ask : Option ℚ
  last_price : Option ℚ
deriving DecidableEq, Repr

/-- Python `x or y` on a nullable float: `y` when `x` is `None` or 0. -/
def py_or (x : Option ℚ) (y : ℚ) : ℚ :=
  match x with
  | some v => if v = 0 then y else v
  | none => y

/-- `strike_data.get('ask') or strike_data.get('last_price') or 0`. -/
def strike_ask_price (s : StrikeData) : ℚ := py_or s.ask (py_or s.last_price 0)

/-- A strike dict with the comparison data added by `evaluate_strikes`. -/
structure EnhancedStrike where
  base : StrikeData
  price_comparison : PriceComparisonResult
  ordinal_position : ℤ
deriving DecidableEq, Repr

/-- `PriceComparisonChecker.evaluate_strikes`. The loop over
`enumerate(strikes, start=1)` both builds the enhanced list and folds the
running maximum boost; it is decomposed here into the map producing the
enhanced strikes and the fold of `if boost > max_boost` over them. -/
def evaluate_strikes (st : DBState) (strikes : List StrikeData) (stock_price : ℚ)
    (option_type : String) (dte : ℤ) (symbol : String) (now : ℤ) :
    List EnhancedStrike × ℚ :=
  if strikes = [] then ([], 0)
  else
    let day_of_week := dt_weekday now
    let time_slot := time_slot_of now
    let enhanced := (List.enumFrom 1 strikes).map (fun p =>
      { base := p.2,
        price_comparison := check_price_elevation st (strike_ask_price p.2)
          option_type (p.1 : ℤ) dte day_of_week time_slot symbol now,
        ordinal_position := (p.1 : ℤ) })
    let max_boost := enhanced.foldl
      (fun m e =>
        if e.price_comparison.confidence_boost > m then
          e.price_comparison.confidence_boost
        else m) 0
    (enhanced, max_boost)

/-- `OptionsHistoryDB.cleanup_old_data`: delete snapshots older than the
cutoff and keep only the weekly-average rows of the two most recent
distinct `calculated_at` values. -/
def cleanup_old_data (st : DBState) (weeks : ℤ) (now : ℤ) : ℕ × DBState :=
  let cutoff := now - weeks * 7 * minutesPerDay
  let deleted := (st.option_snapshots.filter (fun r => decide (r.timestamp < cutoff))).length
  let keep := (((st.weekly_averages.map (fun r => r.calculated_at)).dedup).insertionSort
      (fun a b => b ≤ a)).take 2
  (deleted,
   { st with
     option_snapshots := st.option_snapshots.filter (fun r => !(decide (r.timestamp < cutoff))),
     weekly_averages := st.weekly_averages.filter (fun r => decide (r.calculated_at ∈ keep)) })

/-- `WHERE day_of_week IS NULL OR time_slot IS NULL`. -/
def needs_time_metadata (r : SnapRow) : Bool :=
  r.day_of_week.isNone || r.time_slot.isNone

/-- The `SET` clause of `migrate_time_metadata`: day of week recomputed as
`(strftime('%w', timestamp) + 6) % 7` and the time slot reformatted from
the timestamp. -/
def backfill_time (r : SnapRow) : SnapRow :=
  if needs_time_metadata r then
    { r with day_of_week := some ((strftime_w r.timestamp + 6) % 7),
             time_slot := some (time_slot_of r.timestamp) }
  else r

/-- `OptionsHistoryDB.migrate_time_metadata`: one `UPDATE` whose rowcount
(the matched rows) is returned. -/
def migrate_time_metadata (st : DBState) : ℕ × DBState :=
  ((st.option_snapshots.filter needs_time_metadata).length,
   { st with option_snapshots := st.option_snapshots.map backfill_time })

/-- The group key of the ordinal backfill:
`DISTINCT timestamp, symbol, option_type`. -/
def snap_group_key (r : SnapRow) : ℤ × String × String :=
  (r.timestamp, r.symbol, r.option_type)

/-- `ORDER BY strike ASC` for CALL groups, `ORDER BY strike DESC`
otherwise. -/
def strike_le (option_type : String) (a b : SnapRow) : Bool :=
  if option_type = "CALL" then decide (a.strike ≤ b.strike)
  else decide (b.strike ≤ a.strike)

/-- One `UPDATE option_snapshots SET ordinal_position = ? WHERE id = ?`. -/
def apply_update (rows : List SnapRow) (u : ℕ × ℤ) : List SnapRow :=
  rows.map (fun r => if r.id = u.1 then { r with ordinal_position := some u.2 } else r)

/-- The updates issued for one group: each row of the group in strike
order, positions from `enumerate(rows, start=1)`, only positions ≤ 10. -/
def group_updates (option_type : String) (rows : List SnapRow) : List (ℕ × ℤ) :=
  ((rows.insertionSort (fun a b => strike_le option_type a b = true)).enum).filterMap
    (fun p => if p.1 + 1 ≤ 10 then some (p.2.id, (p.1 : ℤ) + 1) else none)

/-- The body of the `for group in groups` loop of
`migrate_ordinal_positions`: re-select the group's rows from the live
table, sort by strike, issue the position updates, add their number to the
running count. -/
def ordinal_step (acc : ℕ × DBState) (g : ℤ × String × String) : ℕ × DBState :=
  let rows := acc.2.option_snapshots.filter (fun r => decide (snap_group_key r = g))
  let updates := group_updates g.2.2 rows
  (acc.1 + updates.length,
   { acc.2 with option_snapshots := updates.foldl apply_update acc.2.option_snapshots })

/-- `OptionsHistoryDB.migrate_ordinal_positions`. -/
def migrate_ordinal_positions (st : DBState) : ℕ × DBState :=
  let null_rows := st.option_snapshots.filter (fun r => r.ordinal_position.isNone)
  if null_rows.length = 0 then (0, st)
  else ((null_rows.map snap_group_key).dedup).foldl ordinal_step (0, st)

/-! Helper lemmas shared by the claim theorems. -/

theorem max_half_int (x : ℚ) : ∃ k : ℤ, max (1/2 : ℚ) (round_to_half x) = (k : ℚ) / 2 := by
  rcases le_or_lt (round_to_half x) (1/2) with hle | hgt
  · exact ⟨1, by rw [max_eq_left hle]; norm_num⟩
  · exact ⟨pyRound (x * 2), by rw [max_eq_right hgt.le]; rfl⟩

/-- Claim C10: `calculate_strike_distance` is total over all rational
strike and stock-price inputs and always returns a multiple of 0.5; for
option type CALL the result is at least +0.5 and equals the rounded
strike-minus-price distance whenever that rounded distance exceeds 0.5;
for any other option type the result is at most -0.5 and equals the
negated rounded price-minus-strike distance whenever that exceeds 0.5 in
magnitude; rounded distances not above 0.5 are clamped to +0.5 / -0.5
rather than rejected. -/
theorem calculate_strike_distance_spec (strike stock_price : ℚ) (option_type : String) :
    (∃ k : ℤ, calculate_strike_distance strike stock_price option_type = (k : ℚ) / 2) ∧
    (option_type = "CALL" →
      1/2 ≤ calculate_strike_distance strike stock_price option_type ∧
      (1/2 < round_to_half (strike - stock_price) →
        calculate_strike_distance strike stock_price option_type =
          round_to_half (strike - stock_price)) ∧
      (round_to_half (strike - stock_price) ≤ 1/2 →
        calculate_strike_distance strike stock_price option_type = 1/2)) ∧
    (option_type ≠ "CALL" →
      calculate_strike_distance strike stock_price option_type ≤ -(1/2) ∧
      (1/2 < round_to_half (stock_price - strike) →
        calculate_strike_distance strike stock_price option_type =
          -round_to_half (stock_price - strike)) ∧
      (round_to_half (stock_price - strike) ≤ 1/2 →
        calculate_strike_distance strike stock_price option_type = -(1/2))) := by
  unfold calculate_strike_distance
  by_cases h : option_type = "CALL"
  · rw [if_pos h]
    exact ⟨max_half_int _,
      fun _ => ⟨le_max_left _ _, fun hgt => max_eq_right hgt.le, fun hle => max_eq_left hle⟩,
      fun hne => absurd h hne⟩
  · rw [if_neg h]
    refine ⟨?_, fun hc => absurd hc h,
      fun _ => ⟨neg_le_neg (le_max_left _ _),
        fun hgt => by rw [max_eq_right hgt.le],
        fun hle => by rw [max_eq_left hle]⟩⟩
    obtain ⟨k, hk⟩ := max_half_int (stock_price - strike)
    exact ⟨-k, by rw [hk]; push_cast; ring⟩

/-- Witness for C10 at strike 10, price 7: a CALL is 0.5 away in rounded
units exceeded, a PUT is clamped below -0.5. -/
theorem calculate_strike_distance_spec_witness :
    (1:ℚ)/2 < round_to_half ((10:ℚ) - 7) ∧
    calculate_strike_distance 10 7 "CALL" = round_to_half ((10:ℚ) - 7) ∧
    ("PUT" : String) ≠ "CALL" ∧
    calculate_strike_distance 10 7 "PUT" ≤ -(1/2) :=
  have h1 : (1:ℚ)/2 < round_to_half ((10:ℚ) - 7) := by
    norm_num [round_to_half, pyRound]
  have h2 : ("PUT" : String) ≠ "CALL" := by decide
  ⟨h1, ((calculate_strike_distance_spec 10 7 "CALL").2.1 rfl).2.1 h1, h2,
    ((calculate_strike_distance_spec 10 7 "PUT").2.2 h2).1⟩

/-- Claim C2: with a positive obtainable average `a` and a positive current
price `c`, `check_price_elevation` reports elevation percentage
`(c - a) / a`, is elevated exactly on the inclusive 34% boundary, and the
confidence boost is 0.3 when elevated and 0.0 otherwise. -/
theorem check_price_elevation_elevated_spec (st : DBState) (c : ℚ) (option_type : String)
    (ordinal_position dte day_of_week : ℤ) (time_slot symbol : String) (now : ℤ) (a : ℚ)
    (havg : get_average_price st option_type ordinal_position dte day_of_week time_slot symbol now = some a)
    (ha : 0 < a) (hc : 0 < c) :
    (check_price_elevation st c option_type ordinal_position dte day_of_week time_slot symbol now).elevation_pct
      = some ((c - a) / a) ∧
    ((check_price_elevation st c option_type ordinal_position dte day_of_week time_slot symbol now).is_elevated
      = true ↔ 34/100 ≤ (c - a) / a) ∧
    (check_price_elevation st c option_type ordinal_position dte day_of_week time_slot symbol now).confidence_boost
      = (if 34/100 ≤ (c - a) / a then 3/10 else 0) := by
  have hna : ¬ a ≤ 0 := not_le.mpr ha
  have hnc : ¬ c ≤ 0 := not_le.mpr hc
  by_cases hth : (34:ℚ)/100 ≤ (c - a) / a
  · simp [check_price_elevation, havg, hna, hnc, PRICE_ELEVATION_THRESHOLD,
      PRICE_ELEVATION_BOOST, hth]
  · simp [check_price_elevation, havg, hna, hnc, PRICE_ELEVATION_THRESHOLD,
      PRICE_ELEVATION_BOOST, hth]

/-- The database state used to witness C2: one precomputed weekly average
of 1.0 for the Thursday 09:35 CALL ordinal-1 0DTE bucket. -/
def C2row : AvgRow :=
  { calculated_at := 0, symbol := "APP", option_type := "CALL", strike_distance := 0,
    dte := 0, avg_mid_price := some 1, sample_count := 1, min_price := some 1,
    max_price := some 1, avg_ask_price := some 1, day_of_week := some 3,
    time_slot := some "09:35", ordinal_position := some 1 }

def C2st : DBState :=
  { next_id := 0, option_snapshots := [], weekly_averages := [C2row], earnings_calendar := [] }

/-- Witness for C2 at the inclusive boundary: current price 1.34 against
average 1.00 is elevated with boost 0.3. -/
theorem check_price_elevation_elevated_spec_witness :
    get_average_price C2st "CALL" 1 0 3 "09:35" "APP" 100 = some 1 ∧
    (check_price_elevation C2st (134/100) "CALL" 1 0 3 "09:35" "APP" 100).is_elevated = true ∧
    (check_price_elevation C2st (134/100) "CALL" 1 0 3 "09:35" "APP" 100).confidence_boost = 3/10 := by
  have h : get_average_price C2st "CALL" 1 0 3 "09:35" "APP" 100 = some 1 := by decide
  have main := check_price_elevation_elevated_spec C2st (134/100) "CALL" 1 0 3 "09:35" "APP" 100 1 h
    (by norm_num) (by norm_num)
  exact ⟨h, main.2.1.mpr (by norm_num), by rw [main.2.2]; norm_num⟩

/-- Claim C9: when the looked-up average is `NULL` or not positive,
`check_price_elevation` degrades to the fixed no-historical-data result
(and, being a total function of the state, raises nothing). -/
theorem check_price_elevation_no_history (st : DBState) (c : ℚ) (option_type : String)
    (ordinal_position dte day_of_week : ℤ) (time_slot symbol : String) (now : ℤ)
    (h : get_average_price st option_type ordinal_position dte day_of_week time_slot symbol now = none ∨
      ∃ a, get_average_price st option_type ordinal_position dte day_of_week time_slot symbol now = some a ∧ a ≤ 0) :
    check_price_elevation st c option_type ordinal_position dte day_of_week time_slot symbol now =
      { is_elevated := false, current_price := c, avg_price := none, elevation_pct := none,
        confidence_boost := 0, has_historical_data := false, day_of_week := day_of_week,
        time_slot := time_slot, ordinal_position := ordinal_position } := by
  rcases h with h | ⟨a, h, ha⟩
  · simp [check_price_elevation, h, no_history_result]
  · simp [check_price_elevation, h, no_history_result, if_pos ha]

def C9st : DBState :=
  { next_id := 0, option_snapshots := [], weekly_averages := [], earnings_calendar := [] }

/-- Witness for C9 on the empty store: no precomputed record and no raw
snapshot exists, the lookup is `none` and the result is degraded. -/
theorem check_price_elevation_no_history_witness :
    get_average_price C9st "CALL" 1 0 3 "09:35" "APP" 0 = none ∧
    check_price_elevation C9st 5 "CALL" 1 0 3 "09:35" "APP" 0 =
      { is_elevated := false, current_price := 5, avg_price := none, elevation_pct := none,
        confidence_boost := 0, has_historical_data := false, day_of_week := 3,
        time_slot := "09:35", ordinal_position := 1 } :=
  have h : get_average_price C9st "CALL" 1 0 3 "09:35" "APP" 0 = none := by decide
  ⟨h, check_price_elevation_no_history C9st 5 "CALL" 1 0 3 "09:35" "APP" 0 (Or.inl h)⟩

def C5st : DBState :=
  { next_id := 0, option_snapshots := [], weekly_averages := [], earnings_calendar := [] }

/-- Counterexample to claim C5 as stated: storing a Saturday earnings date
(day number 5 of the Monday-based epoch) produces a row whose
earnings_date does not fall within [week_start, week_end]. -/
theorem earnings_week_weekend_counterexample :
    ∃ r ∈ (store_earnings_date C5st "APP" 5 "manual" 0).2.earnings_calendar,
      ¬(r.week_start ≤ r.earnings_date ∧ r.earnings_date ≤ r.week_end) := by decide

/-- Claim C5, amended: every row written by `store_earnings_date` has
week_start the Monday and week_end the Friday of the week containing
earnings_date (the week contains the date), prior rows are untouched, and
earnings_date itself falls within [week_start, week_end] whenever it is a
weekday (Monday..Friday) — weekend earnings dates land after week_end. -/
theorem store_earnings_date_week_bounds (st : DBState) (symbol : String)
    (d : ℤ) (source : String) (now : ℤ) :
    (store_earnings_date st symbol d source now).2.earnings_calendar =
      st.earnings_calendar.filter
        (fun r => !(decide (r.symbol = symbol ∧ r.earnings_date = d))) ++
      [{ symbol := symbol, earnings_date := d, week_start := d - date_weekday d,
         week_end := d - date_weekday d + 4, source := source, created_at := now }] ∧
    date_weekday (d - date_weekday d) = 0 ∧
    date_weekday (d - date_weekday d + 4) = 4 ∧
    d - date_weekday d ≤ d ∧ d < d - date_weekday d + 7 ∧
    (date_weekday d ≤ 4 → d ≤ d - date_weekday d + 4) := by
  refine ⟨rfl, ?_, ?_, ?_, ?_, ?_⟩ <;>
    simp only [date_weekday] <;> omega

/-- Witness for C5 applying the amended bounds at a Wednesday date. -/
theorem store_earnings_date_week_bounds_witness :
    date_weekday 2 ≤ 4 ∧ (2:ℤ) ≤ 2 - date_weekday 2 + 4 :=
  have h : date_weekday 2 ≤ 4 := by decide
  ⟨h, (store_earnings_date_week_bounds C5st "APP" 2 "manual" 0).2.2.2.2.2 h⟩

theorem lookup_store_snapshot (st : DBState) (s : OptionSnapshot) :
    lookup_snapshot (store_snapshot st s).2 (snapshot_key s) = [snapRowOf st.next_id s] := by
  simp only [lookup_snapshot, store_snapshot, List.filter_append, List.filter_filter]
  rw [List.filter_eq_nil_iff.mpr (fun a _ => by cases hd : decide (snap_key a = snapshot_key s) <;> simp [hd])]
  have hkey : snap_key (snapRowOf st.next_id s) = snapshot_key s := rfl
  simp [hkey]

/-- Claim C7: storing a snapshot succeeds and re-reading it by its natural
key returns exactly one row with identical field values; a second write
with the same natural key leaves exactly one row for that key, holding the
second write's values. -/
theorem store_snapshot_roundtrip (st : DBState) (s1 s2 : OptionSnapshot) :
    (store_snapshot st s1).1 = true ∧
    lookup_snapshot (store_snapshot st s1).2 (snapshot_key s1) = [snapRowOf st.next_id s1] ∧
    (snapRowOf st.next_id s1).fields = s1 ∧
    (snapshot_key s2 = snapshot_key s1 →
      lookup_snapshot (store_snapshot (store_snapshot st s1).2 s2).2 (snapshot_key s1) =
        [snapRowOf (st.next_id + 1) s2] ∧
      (snapRowOf (st.next_id + 1) s2).fields = s2) := by
  refine ⟨rfl, lookup_store_snapshot st s1, rfl, fun hk => ⟨?_, rfl⟩⟩
  rw [← hk]
  exact lookup_store_snapshot (store_snapshot st s1).2 s2

def C7s1 : OptionSnapshot :=
  { timestamp := 100, symbol := "APP", stock_price := 10, expiration_date := "2025-01-03",
    dte := 0, option_type := "CALL", strike := 11, strike_distance := 1, mid_price := some 1,
    last_price := none, bid := some 1, ask := some 2, volume := some 5, open_interest := some 7,
    day_of_week := some 3, time_slot := some "09:35", ordinal_position := some 1 }

def C7s2 : OptionSnapshot :=
  { C7s1 with mid_price := some 2, ask := some 4, bid := some 3 }

def C7st : DBState :=
  { next_id := 0, option_snapshots := [], weekly_averages := [], earnings_calendar := [] }

/-- Witness for C7: two writes with the same natural key on a concrete
store leave exactly the second row. -/
theorem store_snapshot_roundtrip_witness :
    snapshot_key C7s2 = snapshot_key C7s1 ∧
    lookup_snapshot (store_snapshot (store_snapshot C7st C7s1).2 C7s2).2 (snapshot_key C7s1) =
      [snapRowOf 1 C7s2] :=
  have hk : snapshot_key C7s2 = snapshot_key C7s1 := by decide
  ⟨hk, ((store_snapshot_roundtrip C7st C7s1 C7s2).2.2.2 hk).1⟩

theorem foldl_if_max {α : Type} (f : α → ℚ) (l : List α) (a : ℚ) :
    l.foldl (fun m e => if f e > m then f e else m) a = (l.map f).foldl max a := by
  induction l generalizing a with
  | nil => rfl
  | cons x t ih =>
    rw [List.foldl_cons, List.map_cons, List.foldl_cons, ih]
    congr 1
    rcases le_or_lt (f x) a with h | h
    · rw [if_neg (not_lt.mpr h), max_eq_left h]
    · rw [if_pos h, max_eq_right h.le]

def C6row1 : AvgRow :=
  { calculated_at := 0, symbol := "APP", option_type := "CALL", strike_distance := 0,
    dte := 0, avg_mid_price := some 1, sample_count := 1, min_price := some 1,
    max_price := some 1, avg_ask_price := some 1, day_of_week := some 0,
    time_slot := some "09:35", ordinal_position := some 1 }

def C6row2 : AvgRow := { C6row1 with ordinal_position := some 2 }

def C6row3 : AvgRow := { C6row1 with ordinal_position := some 3 }

/-- State for the C6 concrete scenario: averages of 1.0 for the first three
ordinals of the Monday 09:35 CALL 0DTE bucket. -/
def C6st : DBState :=
  { next_id := 0, option_snapshots := [], weekly_averages := [C6row1, C6row2, C6row3],
    earnings_calendar := [] }

/-- Three strikes: the first two quoted at 2.0 (elevated 100% over the 1.0
average), the third at 1.0 (not elevated). -/
def C6strikes : List StrikeData :=
  [{ strike := 11, ask := some 2, last_price := none },
   { strike := 12, ask := some 2, last_price := none },
   { strike := 13, ask := some 1, last_price := none }]

/-- Claim C6: `evaluate_strikes` gives each strike the ordinal position
index+1 in the given order, attaches to each strike the price comparison
computed from its own price and ordinal, and returns the maximum
confidence boost across strikes — on the concrete three-strike scenario
with two elevated strikes the result is 0.3, not the sum 0.6. -/
theorem evaluate_strikes_spec (st : DBState) (strikes : List StrikeData) (sp : ℚ)
    (option_type : String) (dte : ℤ) (symbol : String) (now : ℤ) :
    ((evaluate_strikes st strikes sp option_type dte symbol now).1.map
        (fun e => e.ordinal_position) =
      (List.range' 1 strikes.length).map Int.ofNat) ∧
    ((evaluate_strikes st strikes sp option_type dte symbol now).1.map
        (fun e => e.base) = strikes) ∧
    ((evaluate_strikes st strikes sp option_type dte symbol now).1.map
        (fun e => e.price_comparison) =
      (evaluate_strikes st strikes sp option_type dte symbol now).1.map
        (fun e => check_price_elevation st (strike_ask_price e.base) option_type
          e.ordinal_position dte (dt_weekday now) (time_slot_of now) symbol now)) ∧
    ((evaluate_strikes st strikes sp option_type dte symbol now).2 =
      ((evaluate_strikes st strikes sp option_type dte symbol now).1.map
        (fun e => e.price_comparison.confidence_boost)).foldl max 0) ∧
    (evaluate_strikes C6st C6strikes 10 "CALL" 0 "APP" 575).2 = 3/10 ∧
    (evaluate_strikes C6st C6strikes 10 "CALL" 0 "APP" 575).2 ≠ 6/10 := by
  have hconc : (evaluate_strikes C6st C6strikes 10 "CALL" 0 "APP" 575).2 = 3/10 := by
    have hd : dt_weekday 575 = 0 := by decide
    have hs : time_slot_of 575 = "09:35" := by decide
    have hp1 : strike_ask_price { strike := 11, ask := some 2, last_price := none } = 2 := by decide
    have hp2 : strike_ask_price { strike := 12, ask := some 2, last_price := none } = 2 := by decide
    have hp3 : strike_ask_price { strike := 13, ask := some 1, last_price := none } = 1 := by decide
    have g1 : get_average_price C6st "CALL" 1 0 0 "09:35" "APP" 575 = some 1 := by decide
    have g2 : get_average_price C6st "CALL" 2 0 0 "09:35" "APP" 575 = some 1 := by decide
    have g3 : get_average_price C6st "CALL" 3 0 0 "09:35" "APP" 575 = some 1 := by decide
    have e1 : (check_price_elevation C6st 2 "CALL" 1 0 0 "09:35" "APP" 575).confidence_boost
        = 3/10 := by
      norm_num [check_price_elevation, g1, PRICE_ELEVATION_THRESHOLD, PRICE_ELEVATION_BOOST]
    have e2 : (check_price_elevation C6st 2 "CALL" 2 0 0 "09:35" "APP" 575).confidence_boost
        = 3/10 := by
      norm_num [check_price_elevation, g2, PRICE_ELEVATION_THRESHOLD, PRICE_ELEVATION_BOOST]
    have e3 : (check_price_elevation C6st 1 "CALL" 3 0 0 "09:35" "APP" 575).confidence_boost
        = 0 := by
      norm_num [check_price_elevation, g3, PRICE_ELEVATION_THRESHOLD, PRICE_ELEVATION_BOOST]
    norm_num [evaluate_strikes, C6strikes, hd, hs, hp1, hp2, hp3, e1, e2, e3, List.enumFrom]
    rfl
  have hfst : (evaluate_strikes st strikes sp option_type dte symbol now).1 =
      (List.enumFrom 1 strikes).map (fun p =>
        { base := p.2,
          price_comparison := check_price_elevation st (strike_ask_price p.2) option_type
            (p.1 : ℤ) dte (dt_weekday now) (time_slot_of now) symbol now,
          ordinal_position := (p.1 : ℤ) }) := by
    by_cases h : strikes = []
    · subst h; rfl
    · simp only [evaluate_strikes, if_neg h]
  refine ⟨?_, ?_, ?_, ?_, hconc, by rw [hconc]; norm_num⟩
  · rw [hfst, List.map_map, ← List.enumFrom_map_fst 1 strikes, List.map_map]
    rfl
  · conv_rhs => rw [← List.enumFrom_map_snd 1 strikes]
    rw [hfst, List.map_map]
    rfl
  · rw [hfst, List.map_map, List.map_map]
    rfl
  · by_cases h : strikes = []
    · subst h; rfl
    · simp only [evaluate_strikes, if_neg h]
      exact foldl_if_max _ _ 0

instance : IsTrans ℤ (fun a b : ℤ => b ≤ a) := ⟨fun _ _ _ h1 h2 => le_trans h2 h1⟩

instance : IsTotal ℤ (fun a b : ℤ => b ≤ a) := ⟨fun a b => le_total b a⟩

theorem mem_take_iff_filter_lt (S : List ℤ) (hS : S.Pairwise (fun a b => b < a)) (v : ℤ)
    (hv : v ∈ S) (k : ℕ) :
    v ∈ S.take k ↔ (S.filter (fun w => decide (v < w))).length < k := by
  induction S generalizing k with
  | nil => cases hv
  | cons a t ih =>
    rcases List.pairwise_cons.mp hS with ⟨ha, ht⟩
    rcases List.mem_cons.mp hv with rfl | hvt
    · have hfilter : (v :: t).filter (fun w => decide (v < w)) = [] := by
        rw [List.filter_eq_nil_iff]
        intro b hb
        rcases List.mem_cons.mp hb with rfl | hbt
        · simp
        · simpa using not_lt.mpr (ha b hbt).le
      rw [hfilter]
      cases k with
      | zero => simp
      | succ k => simp
    · have hva : v < a := ha v hvt
      have hne : v ≠ a := ne_of_lt hva
      cases k with
      | zero => simp
      | succ k =>
        rw [List.take_succ_cons, List.filter_cons_of_pos (by simpa using hva)]
        simp only [List.mem_cons, hne, false_or, List.length_cons]
        rw [ih ht hvt]
        omega

theorem cleanup_keep_iff (l : List AvgRow) (c : ℤ)
    (hc : c ∈ l.map (fun r => r.calculated_at)) :
    (c ∈ ((((l.map (fun r => r.calculated_at)).dedup).insertionSort
        (fun a b => b ≤ a)).take 2)) ↔
      (((l.map (fun r => r.calculated_at)).dedup.filter
          (fun w => decide (c < w))).length < 2) := by
  set vals := (l.map (fun r => r.calculated_at)).dedup with hvals
  have hperm : (vals.insertionSort (fun a b => b ≤ a)).Perm vals :=
    List.perm_insertionSort _ _
  have hnodup : (vals.insertionSort (fun a b => b ≤ a)).Nodup :=
    hperm.symm.nodup (List.nodup_dedup _)
  have hsorted : (vals.insertionSort (fun a b => b ≤ a)).Pairwise (fun a b => b ≤ a) :=
    List.sorted_insertionSort _ vals
  have hstrict : (vals.insertionSort (fun a b => b ≤ a)).Pairwise (fun a b => b < a) :=
    (hsorted.and hnodup).imp (fun h => lt_of_le_of_ne h.1 (Ne.symm h.2))
  have hcv : c ∈ vals := List.mem_dedup.mpr hc
  have hcs : c ∈ vals.insertionSort (fun a b => b ≤ a) := hperm.mem_iff.mpr hcv
  rw [mem_take_iff_filter_lt _ hstrict c hcs 2,
      (hperm.filter (fun w => decide (c < w))).length_eq]

/-- Claim C8: after `cleanup_old_data(weeks)` no snapshot strictly older
than now minus weeks remains and every younger snapshot survives
unchanged; a weekly-average row survives exactly when fewer than two
distinct `calculated_at` values in the table are more recent than its own,
i.e. exactly the rows of the two most recent distinct calculation runs
remain, however many runs existed. -/
theorem cleanup_old_data_spec (st : DBState) (weeks now : ℤ) :
    (cleanup_old_data st weeks now).2.option_snapshots =
      st.option_snapshots.filter
        (fun r => !(decide (r.timestamp < now - weeks * 7 * minutesPerDay))) ∧
    (∀ r : SnapRow, r ∈ (cleanup_old_data st weeks now).2.option_snapshots ↔
      (r ∈ st.option_snapshots ∧ now - weeks * 7 * minutesPerDay ≤ r.timestamp)) ∧
    (∀ r : AvgRow, r ∈ (cleanup_old_data st weeks now).2.weekly_averages ↔
      (r ∈ st.weekly_averages ∧
        (((st.weekly_averages.map (fun x => x.calculated_at)).dedup.filter
            (fun w => decide (r.calculated_at < w))).length < 2))) := by
  refine ⟨rfl, ?_, ?_⟩
  · intro r
    simp [cleanup_old_data, List.mem_filter, not_lt]
  · intro r
    constructor
    · intro hmem
      rcases List.mem_filter.mp hmem with ⟨hr, hkeep⟩
      have hc : r.calculated_at ∈ st.weekly_averages.map (fun x => x.calculated_at) :=
        List.mem_map_of_mem _ hr
      exact ⟨hr, (cleanup_keep_iff _ _ hc).mp (by simpa using hkeep)⟩
    · rintro ⟨hr, hcount⟩
      have hc : r.calculated_at ∈ st.weekly_averages.map (fun x => x.calculated_at) :=
        List.mem_map_of_mem _ hr
      exact List.mem_filter.mpr
        ⟨hr, by simpa using (cleanup_keep_iff _ _ hc).mpr hcount⟩

theorem latest_row_go (t : List AvgRow) (b : AvgRow) :
    ∃ row, t.foldl (fun acc r =>
        match acc with
        | none => some r
        | some x => if x.calculated_at < r.calculated_at then some r else acc) (some b) =
          some row ∧
      (row = b ∨ row ∈ t) ∧ b.calculated_at ≤ row.calculated_at ∧
      ∀ r' ∈ t, r'.calculated_at ≤ row.calculated_at := by
  induction t generalizing b with
  | nil => exact ⟨b, rfl, Or.inl rfl, le_refl _, by simp⟩
  | cons a t ih =>
    rw [List.foldl_cons]
    by_cases h : b.calculated_at < a.calculated_at
    · simp only [if_pos h]
      obtain ⟨row, heq, hmem, hle, hall⟩ := ih a
      refine ⟨row, heq, ?_, le_trans h.le hle, ?_⟩
      · rcases hmem with rfl | hm
        · exact Or.inr (List.mem_cons_self _ _)
        · exact Or.inr (List.mem_cons_of_mem _ hm)
      · intro r' hr'
        rcases List.mem_cons.mp hr' with rfl | hm
        · exact hle
        · exact hall r' hm
    · simp only [if_neg h]
      obtain ⟨row, heq, hmem, hle, hall⟩ := ih b
      refine ⟨row, heq, ?_, hle, ?_⟩
      · rcases hmem with rfl | hm
        · exact Or.inl rfl
        · exact Or.inr (List.mem_cons_of_mem _ hm)
      intro r' hr'
      rcases List.mem_cons.mp hr' with rfl | hm
      · exact le_trans (not_lt.mp h) hle
      · exact hall r' hm

theorem latest_row_some (a : AvgRow) (t : List AvgRow) :
    ∃ row, latest_row (a :: t) = some row ∧ row ∈ a :: t ∧
      ∀ r' ∈ a :: t, r'.calculated_at ≤ row.calculated_at := by
  obtain ⟨row, heq, hmem, hle, hall⟩ := latest_row_go t a
  refine ⟨row, ?_, ?_, ?_⟩
  · simpa [latest_row, List.foldl_cons] using heq
  · rcases hmem with rfl | hm
    · exact List.mem_cons_self _ _
    · exact List.mem_cons_of_mem _ hm
  · intro r' hr'
    rcases List.mem_cons.mp hr' with rfl | hm
    · exact hle
    · exact hall r' hm

/-- Claim C3, amended: when a precomputed record for the exact bucket
exists, the lookup uses the record with the most recent `calculated_at`:
it returns its ask average when that is non-null and nonzero, falls back
to that record's mid average when the ask average is null or zero and the
mid average is non-null and nonzero, and performs the ad-hoc raw-snapshot
aggregation (with inline earnings exclusion) only when no record matches
the bucket or the most recent record has both averages null-or-zero. -/
theorem get_average_price_spec (st : DBState) (option_type : String)
    (ordinal_position dte day_of_week : ℤ) (time_slot symbol : String) (now : ℤ) :
    (avg_matches st option_type ordinal_position dte day_of_week time_slot symbol = [] →
      get_average_price st option_type ordinal_position dte day_of_week time_slot symbol now =
        raw_average st option_type ordinal_position dte day_of_week time_slot symbol now) ∧
    (avg_matches st option_type ordinal_position dte day_of_week time_slot symbol ≠ [] →
      ∃ row, latest_row (avg_matches st option_type ordinal_position dte day_of_week time_slot symbol)
        = some row) ∧
    (∀ row, latest_row (avg_matches st option_type ordinal_position dte day_of_week time_slot symbol)
        = some row →
      row ∈ avg_matches st option_type ordinal_position dte day_of_week time_slot symbol ∧
      (∀ r' ∈ avg_matches st option_type ordinal_position dte day_of_week time_slot symbol,
        r'.calculated_at ≤ row.calculated_at) ∧
      (truthy row.avg_ask_price = true →
        get_average_price st option_type ordinal_position dte day_of_week time_slot symbol now =
          row.avg_ask_price) ∧
      (truthy row.avg_ask_price = false → truthy row.avg_mid_price = true →
        get_average_price st option_type ordinal_position dte day_of_week time_slot symbol now =
          row.avg_mid_price) ∧
      (truthy row.avg_ask_price = false → truthy row.avg_mid_price = false →
        get_average_price st option_type ordinal_position dte day_of_week time_slot symbol now =
          raw_average st option_type ordinal_position dte day_of_week time_slot symbol now)) := by
  refine ⟨?_, ?_, ?_⟩
  · intro h
    simp [get_average_price, h, latest_row]
  · intro h
    rcases hm : avg_matches st option_type ordinal_position dte day_of_week time_slot symbol with
      _ | ⟨a, t⟩
    · exact absurd hm h
    · obtain ⟨row, heq, -, -⟩ := latest_row_some a t
      exact ⟨row, heq⟩
  · intro row h
    have hmem_max :
        row ∈ avg_matches st option_type ordinal_position dte day_of_week time_slot symbol ∧
        ∀ r' ∈ avg_matches st option_type ordinal_position dte day_of_week time_slot symbol,
          r'.calculated_at ≤ row.calculated_at := by
      rcases hm : avg_matches st option_type ordinal_position dte day_of_week time_slot symbol with
        _ | ⟨a, t⟩
      · rw [hm] at h
        simp [latest_row] at h
      · obtain ⟨row2, heq, hmem, hall⟩ := latest_row_some a t
        rw [hm] at h
        rw [h] at heq
        obtain rfl := (Option.some.injEq _ _).mp heq.symm
        exact ⟨hmem, hall⟩
    refine ⟨hmem_max.1, hmem_max.2, ?_, ?_, ?_⟩
    · intro hT
      simp [get_average_price, h, hT]
    · intro hF hT
      simp [get_average_price, h, hF, hT]
    · intro hF1 hF2
      simp [get_average_price, h, hF1, hF2]

/-- A legacy weekly-average row carrying no usable averages: the ask
average is `NULL` and the mid average is 0. -/
def C3row : AvgRow :=
  { calculated_at := 0, symbol := "APP", option_type := "CALL", strike_distance := 0,
    dte := 0, avg_mid_price := some 0, sample_count := 1, min_price := none,
    max_price := none, avg_ask_price := none, day_of_week := some 3,
    time_slot := some "09:35", ordinal_position := some 1 }

def C3snap : SnapRow :=
  { id := 0, timestamp := 100, symbol := "APP", stock_price := 10,
    expiration_date := "2025-01-03", dte := 0, option_type := "CALL", strike := 11,
    strike_distance := 1, mid_price := some 1, last_price := none, bid := none,
    ask := some 2, volume := none, open_interest := none, day_of_week := some 3,
    time_slot := some "09:35", ordinal_position := some 1 }

def C3st : DBState :=
  { next_id := 1, option_snapshots := [C3snap], weekly_averages := [C3row],
    earnings_calendar := [] }

/-- Counterexample to claim C3 as stated: a precomputed record for the
bucket exists (ask average `NULL`, mid average 0), yet the lookup returns
the ad-hoc raw-snapshot mean 2 instead of that record's mid average 0 —
the raw aggregation is not reserved for buckets with no record. -/
theorem get_average_price_counterexample :
    avg_matches C3st "CALL" 1 0 3 "09:35" "APP" ≠ [] ∧
    get_average_price C3st "CALL" 1 0 3 "09:35" "APP" 100 = some 2 ∧
    (∀ r ∈ avg_matches C3st "CALL" 1 0 3 "09:35" "APP",
      r.avg_ask_price = none ∧ r.avg_mid_price = some 0) ∧
    some (2:ℚ) ≠ some (0:ℚ) := by
  refine ⟨by decide, ?_, by decide, by norm_num⟩
  norm_num [get_average_price, avg_matches, C3st, C3row, C3snap, latest_row, truthy,
    raw_average, get_earnings_weeks, sqlAvg, pos_ask, in_earnings_week, HISTORY_WEEKS,
    minutesPerDay, dateOf, List.filterMap_cons]

/-- Witness for C3 applying the amended lookup theorem at a concrete
state whose most recent matching record has both averages null-or-zero. -/
theorem get_average_price_spec_witness :
    latest_row (avg_matches C3st "CALL" 1 0 3 "09:35" "APP") = some C3row ∧
    C3row ∈ avg_matches C3st "CALL" 1 0 3 "09:35" "APP" :=
  have h : latest_row (avg_matches C3st "CALL" 1 0 3 "09:35" "APP") = some C3row := by decide
  ⟨h, ((get_average_price_spec C3st "CALL" 1 0 3 "09:35" "APP" 100).2.2 C3row h).1⟩

def C1a : SnapRow :=
  { id := 0, timestamp := 575, symbol := "APP", stock_price := 10,
    expiration_date := "2025-01-03", dte := 0, option_type := "CALL", strike := 11,
    strike_distance := 1, mid_price := some 1, last_price := none, bid := none,
    ask := some 1, volume := none, open_interest := none, day_of_week := some 3,
    time_slot := some "09:35", ordinal_position := some 1 }

def C1b : SnapRow :=
  { C1a with
    id := 1, timestamp := 580, time_slot := some "09:40"
    ask := some 3, mid_price := some 3 }

/-- Two qualifying snapshots of the same symbol, option type, ordinal and
dte but different time slots — two non-empty groups. -/
def C1st : DBState :=
  { next_id := 2, option_snapshots := [C1a, C1b], weekly_averages := [],
    earnings_calendar := [] }

/-- Claim C1 evidence: the averaging query of
`calculate_and_store_averages` produces one aggregated record per
non-empty (day_of_week, time_slot, option_type, ordinal_position, dte)
group — here two — but the run reports success while leaving only one
stored `weekly_averages` row (the last group's, time slot 09:40): every
insert carries the same `calculated_at`, the same hard-coded
`strike_distance` 0 and the same (option_type, dte), so under the table's
UNIQUE key `(calculated_at, symbol, option_type, strike_distance, dte)`
each `INSERT OR REPLACE` overwrites the previous group's record. -/
theorem calculate_and_store_averages_collapse :
    (calc_group_keys C1st "APP" 600).length = 2 ∧
    (calc_records C1st "APP" 600).length = 2 ∧
    (calculate_and_store_averages C1st "APP" 600).1 = true ∧
    ((calculate_and_store_averages C1st "APP" 600).2.weekly_averages).length = 1 ∧
    ((calculate_and_store_averages C1st "APP" 600).2.weekly_averages).map
      (fun r => r.time_slot) = [some "09:40"] := by decide

/-- A snapshot row with its ordinal position cleared: the part of a row
that the ordinal backfill can never change. -/
def stripOrd (r : SnapRow) : SnapRow := { r with ordinal_position := none }

theorem stripOrd_key (r : SnapRow) : snap_group_key (stripOrd r) = snap_group_key r := rfl

theorem apply_update_map_stripOrd (rows : List SnapRow) (u : ℕ × ℤ) :
    (apply_update rows u).map stripOrd = rows.map stripOrd := by
  unfold apply_update
  rw [List.map_map]
  refine List.map_congr_left (fun r _ => ?_)
  by_cases h : r.id = u.1 <;> simp [h, Function.comp, stripOrd]

theorem foldl_apply_update_map_stripOrd (us : List (ℕ × ℤ)) (rows : List SnapRow) :
    (us.foldl apply_update rows).map stripOrd = rows.map stripOrd := by
  induction us generalizing rows with
  | nil => rfl
  | cons u us ih => rw [List.foldl_cons, ih, apply_update_map_stripOrd]

theorem foldl_apply_update_length (us : List (ℕ × ℤ)) (rows : List SnapRow) :
    (us.foldl apply_update rows).length = rows.length := by
  have h := congrArg List.length (foldl_apply_update_map_stripOrd us rows)
  simpa using h

theorem apply_update_length (rows : List SnapRow) (u : ℕ × ℤ) :
    (apply_update rows u).length = rows.length := by
  simp [apply_update]

theorem apply_update_get (rows : List SnapRow) (u : ℕ × ℤ) (i : ℕ)
    (h : i < rows.length) (h2 : i < (apply_update rows u).length) :
    (apply_update rows u).get ⟨i, h2⟩ =
      (if (rows.get ⟨i, h⟩).id = u.1
        then { rows.get ⟨i, h⟩ with ordinal_position := some u.2 }
        else rows.get ⟨i, h⟩) := by
  simp [apply_update, List.get_eq_getElem, List.getElem_map]

theorem foldl_apply_update_get_untouched (us : List (ℕ × ℤ)) :
    ∀ (rows : List SnapRow) (i : ℕ) (h : i < rows.length)
      (h2 : i < (us.foldl apply_update rows).length),
      (∀ u ∈ us, u.1 ≠ (rows.get ⟨i, h⟩).id) →
      (us.foldl apply_update rows).get ⟨i, h2⟩ = rows.get ⟨i, h⟩ := by
  induction us with
  | nil => intro rows i h h2 _; rfl
  | cons u us ih =>
    intro rows i h h2 hu
    have hlen : i < (apply_update rows u).length := by rw [apply_update_length]; exact h
    have hget : (apply_update rows u).get ⟨i, hlen⟩ = rows.get ⟨i, h⟩ := by
      rw [apply_update_get rows u i h hlen, if_neg]
      exact fun hc => hu u (List.mem_cons_self _ _) hc.symm
    have hmain := ih (apply_update rows u) i hlen h2 (by
      intro u' hu'
      rw [hget]
      exact hu u' (List.mem_cons_of_mem _ hu'))
    exact hmain.trans hget

theorem foldl_apply_update_get_shape (us : List (ℕ × ℤ)) :
    ∀ (rows : List SnapRow) (i : ℕ) (h : i < rows.length)
      (h2 : i < (us.foldl apply_update rows).length),
      (us.foldl apply_update rows).get ⟨i, h2⟩ = rows.get ⟨i, h⟩ ∨
      ∃ v, (us.foldl apply_update rows).get ⟨i, h2⟩ =
        { rows.get ⟨i, h⟩ with ordinal_position := some v } := by
  induction us with
  | nil => intro rows i h h2; exact Or.inl rfl
  | cons u us ih =>
    intro rows i h h2
    have hlen : i < (apply_update rows u).length := by rw [apply_update_length]; exact h
    have hstep := apply_update_get rows u i h hlen
    have hih := ih (apply_update rows u) i hlen h2
    by_cases hid : (rows.get ⟨i, h⟩).id = u.1
    · rw [if_pos hid] at hstep
      rcases hih with heq | ⟨v, heq⟩
      · exact Or.inr ⟨u.2, heq.trans hstep⟩
      · exact Or.inr ⟨v, heq.trans (by rw [hstep])⟩
    · rw [if_neg hid] at hstep
      rcases hih with heq | ⟨v, heq⟩
      · exact Or.inl (heq.trans hstep)
      · exact Or.inr ⟨v, heq.trans (by rw [hstep])⟩

theorem foldl_apply_update_get_mono (us : List (ℕ × ℤ)) (rows : List SnapRow) (i : ℕ)
    (h : i < rows.length) (h2 : i < (us.foldl apply_update rows).length)
    (hs : ((rows.get ⟨i, h⟩).ordinal_position).isSome) :
    (((us.foldl apply_update rows).get ⟨i, h2⟩).ordinal_position).isSome := by
  rcases foldl_apply_update_get_shape us rows i h h2 with heq | ⟨v, heq⟩ <;> rw [heq]
  · exact hs
  · rfl

theorem foldl_apply_update_get_hit (us : List (ℕ × ℤ)) :
    ∀ (rows : List SnapRow) (i : ℕ) (h : i < rows.length)
      (h2 : i < (us.foldl apply_update rows).length),
      (∃ u ∈ us, u.1 = (rows.get ⟨i, h⟩).id) →
      (((us.foldl apply_update rows).get ⟨i, h2⟩).ordinal_position).isSome := by
  induction us with
  | nil => intro rows i h h2 hex; rcases hex with ⟨u, hu, -⟩; cases hu
  | cons u us ih =>
    intro rows i h h2 hex
    have hlen : i < (apply_update rows u).length := by rw [apply_update_length]; exact h
    have hstep := apply_update_get rows u i h hlen
    by_cases hid : (rows.get ⟨i, h⟩).id = u.1
    · refine foldl_apply_update_get_mono us _ i hlen h2 ?_
      rw [hstep, if_pos hid]
      rfl
    · rcases hex with ⟨u', hu', hid'⟩
      rcases List.mem_cons.mp hu' with rfl | hmem
      · exact absurd hid'.symm hid
      · refine ih (apply_update rows u) i hlen h2 ⟨u', hmem, ?_⟩
        rw [hstep, if_neg hid]
        exact hid'

theorem length_filter_key_eq {l1 l2 : List SnapRow}
    (hmap : l1.map stripOrd = l2.map stripOrd) (g : ℤ × String × String) :
    (l1.filter (fun r => decide (snap_group_key r = g))).length =
      (l2.filter (fun r => decide (snap_group_key r = g))).length := by
  have haux : ∀ l : List SnapRow,
      ((l.map stripOrd).filter (fun r => decide (snap_group_key r = g))).length =
        (l.filter (fun r => decide (snap_group_key r = g))).length := by
    intro l
    rw [List.filter_map, List.length_map]
    exact congrArg List.length (List.filter_congr (fun r _ => rfl))
  rw [← haux l1, hmap, haux l2]

theorem map_id_eq_of_stripOrd {l1 l2 : List SnapRow}
    (hmap : l1.map stripOrd = l2.map stripOrd) :
    l1.map (fun r => r.id) = l2.map (fun r => r.id) := by
  have haux : ∀ l : List SnapRow,
      l.map (fun r => r.id) = (l.map stripOrd).map (fun r => r.id) := by
    intro l
    rw [List.map_map]
    exact List.map_congr_left (fun r _ => rfl)
  rw [haux l1, haux l2, hmap]

theorem stripOrd_get_eq {l1 l2 : List SnapRow}
    (hmap : l1.map stripOrd = l2.map stripOrd) (i : ℕ)
    (h1 : i < l1.length) (h2 : i < l2.length) :
    stripOrd (l1.get ⟨i, h1⟩) = stripOrd (l2.get ⟨i, h2⟩) := by
  have hlen1 : i < (l1.map stripOrd).length := by rw [List.length_map]; exact h1
  have e1 : (l1.map stripOrd).get ⟨i, hlen1⟩ = stripOrd (l1.get ⟨i, h1⟩) := by
    simp [List.get_eq_getElem, List.getElem_map]
  have hlen2 : i < (l2.map stripOrd).length := by rw [List.length_map]; exact h2
  have e2 : (l2.map stripOrd).get ⟨i, hlen2⟩ = stripOrd (l2.get ⟨i, h2⟩) := by
    simp [List.get_eq_getElem, List.getElem_map]
  have e3 : (l1.map stripOrd).get ⟨i, hlen1⟩ = (l2.map stripOrd).get ⟨i, hlen2⟩ := by
    rw [List.get_eq_getElem, List.get_eq_getElem]
    exact List.getElem_of_eq hmap hlen1
  exact e1.symm.trans (e3.trans e2)

theorem key_get_eq_of_stripOrd {l1 l2 : List SnapRow}
    (hmap : l1.map stripOrd = l2.map stripOrd) (i : ℕ)
    (h1 : i < l1.length) (h2 : i < l2.length) :
    snap_group_key (l1.get ⟨i, h1⟩) = snap_group_key (l2.get ⟨i, h2⟩) := by
  have h := stripOrd_get_eq hmap i h1 h2
  calc snap_group_key (l1.get ⟨i, h1⟩) = snap_group_key (stripOrd (l1.get ⟨i, h1⟩)) := rfl
    _ = snap_group_key (stripOrd (l2.get ⟨i, h2⟩)) := congrArg _ h
    _ = snap_group_key (l2.get ⟨i, h2⟩) := rfl

theorem group_updates_id_mem (ot : String) (rows : List SnapRow) (u : ℕ × ℤ)
    (hu : u ∈ group_updates ot rows) : ∃ r ∈ rows, r.id = u.1 := by
  unfold group_updates at hu
  rcases List.mem_filterMap.mp hu with ⟨p, hp, heq⟩
  by_cases hle : p.1 + 1 ≤ 10
  · rw [if_pos hle] at heq
    obtain rfl : (p.2.id, (p.1 : ℤ) + 1) = u := Option.some.inj heq
    have hsnd : p.2 ∈ rows.insertionSort (fun a b => strike_le ot a b = true) := by
      have h := List.mem_map_of_mem Prod.snd hp
      rwa [List.enum_map_snd] at h
    exact ⟨p.2, (List.perm_insertionSort _ _).mem_iff.mp hsnd, rfl⟩
  · rw [if_neg hle] at heq
    cases heq

theorem group_updates_hit (ot : String) (rows : List SnapRow) (r : SnapRow)
    (hr : r ∈ rows) (hlen : rows.length ≤ 10) :
    ∃ u ∈ group_updates ot rows, u.1 = r.id := by
  have hperm := List.perm_insertionSort (fun a b => strike_le ot a b = true) rows
  have hsort : r ∈ rows.insertionSort (fun a b => strike_le ot a b = true) :=
    hperm.mem_iff.mpr hr
  obtain ⟨⟨j, hj⟩, hget⟩ := List.get_of_mem hsort
  have hjlen : j < (rows.insertionSort (fun a b => strike_le ot a b = true)).enum.length := by
    simpa using hj
  have henum : (rows.insertionSort (fun a b => strike_le ot a b = true)).enum.get ⟨j, hjlen⟩
      = (j, r) := by
    rw [List.get_eq_getElem, List.getElem_enum, ← hget, List.get_eq_getElem]
  have hmem_enum : (j, r) ∈ (rows.insertionSort (fun a b => strike_le ot a b = true)).enum := by
    rw [← henum]
    exact List.get_mem _ _ _
  have hj10 : j + 1 ≤ 10 := by
    have hlen2 := hperm.length_eq
    omega
  refine ⟨(r.id, (j : ℤ) + 1), ?_, rfl⟩
  unfold group_updates
  exact List.mem_filterMap.mpr ⟨(j, r), hmem_enum, by rw [if_pos hj10]⟩

theorem ordinal_fold_props (st0 : DBState)
    (hsize : ∀ r ∈ st0.option_snapshots,
      ((st0.option_snapshots.filter
        (fun x => decide (snap_group_key x = snap_group_key r))).length ≤ 10))
    (hids : (st0.option_snapshots.map (fun r => r.id)).Nodup) :
    ∀ (gs : List (ℤ × String × String)) (acc : ℕ × DBState),
      acc.2.option_snapshots.map stripOrd = st0.option_snapshots.map stripOrd →
      ((gs.foldl ordinal_step acc).2.option_snapshots.map stripOrd =
          st0.option_snapshots.map stripOrd) ∧
      (∀ (i : ℕ) (h0 : i < st0.option_snapshots.length)
          (ha : i < acc.2.option_snapshots.length)
          (hf : i < (gs.foldl ordinal_step acc).2.option_snapshots.length),
        ((snap_group_key (st0.option_snapshots.get ⟨i, h0⟩) ∈ gs ∨
            ((acc.2.option_snapshots.get ⟨i, ha⟩).ordinal_position).isSome = true) →
          (((gs.foldl ordinal_step acc).2.option_snapshots.get ⟨i, hf⟩).ordinal_position).isSome) ∧
        (snap_group_key (st0.option_snapshots.get ⟨i, h0⟩) ∉ gs →
          (gs.foldl ordinal_step acc).2.option_snapshots.get ⟨i, hf⟩ =
            acc.2.option_snapshots.get ⟨i, ha⟩)) := by
  intro gs
  induction gs with
  | nil =>
    intro acc hacc
    refine ⟨hacc, fun i h0 ha hf => ⟨?_, fun _ => rfl⟩⟩
    rintro (hmem | hsome)
    · cases hmem
    · exact hsome
  | cons g gs ih =>
    intro acc hacc
    set s1 := ordinal_step acc g with hs1
    have hrows1 : s1.2.option_snapshots =
        (group_updates g.2.2
          (acc.2.option_snapshots.filter (fun r => decide (snap_group_key r = g)))).foldl
          apply_update acc.2.option_snapshots := rfl
    have hshape1 : s1.2.option_snapshots.map stripOrd =
        st0.option_snapshots.map stripOrd := by
      rw [hrows1, foldl_apply_update_map_stripOrd, hacc]
    obtain ⟨ihshape, ihpt⟩ := ih s1 hshape1
    refine ⟨ihshape, ?_⟩
    intro i h0 ha hf
    have hlen_s1 : i < s1.2.option_snapshots.length := by
      rw [hrows1, foldl_apply_update_length]
      exact ha
    have hf' : i < (gs.foldl ordinal_step s1).2.option_snapshots.length := hf
    have hkey_acc : snap_group_key (acc.2.option_snapshots.get ⟨i, ha⟩) =
        snap_group_key (st0.option_snapshots.get ⟨i, h0⟩) :=
      key_get_eq_of_stripOrd hacc i ha h0
    constructor
    · rintro (hmem | hsome)
      · rcases List.mem_cons.mp hmem with heq | hmem'
        · -- this row's group is processed in this step
          have hmemrow : acc.2.option_snapshots.get ⟨i, ha⟩ ∈
              acc.2.option_snapshots.filter (fun r => decide (snap_group_key r = g)) := by
            refine List.mem_filter.mpr ⟨List.get_mem _ _ _, ?_⟩
            exact decide_eq_true (hkey_acc.trans heq)
          have hsize_g : (acc.2.option_snapshots.filter
              (fun r => decide (snap_group_key r = g))).length ≤ 10 := by
            rw [length_filter_key_eq hacc g]
            have h10 := hsize (st0.option_snapshots.get ⟨i, h0⟩) (List.get_mem _ _ _)
            rw [heq] at h10
            exact h10
          obtain ⟨u, hu, huid⟩ := group_updates_hit g.2.2 _ _ hmemrow hsize_g
          have hsome1 : ((s1.2.option_snapshots.get ⟨i, hlen_s1⟩).ordinal_position).isSome :=
            foldl_apply_update_get_hit _ _ i ha hlen_s1 ⟨u, hu, huid⟩
          exact (ihpt i h0 hlen_s1 hf').1 (Or.inr hsome1)
        · exact (ihpt i h0 hlen_s1 hf').1 (Or.inl hmem')
      · have hsome1 : ((s1.2.option_snapshots.get ⟨i, hlen_s1⟩).ordinal_position).isSome :=
          foldl_apply_update_get_mono _ _ i ha hlen_s1 hsome
        exact (ihpt i h0 hlen_s1 hf').1 (Or.inr hsome1)
    · intro hnot
      have hne : snap_group_key (st0.option_snapshots.get ⟨i, h0⟩) ≠ g :=
        fun hc => hnot (List.mem_cons.mpr (Or.inl hc))
      have hnot' : snap_group_key (st0.option_snapshots.get ⟨i, h0⟩) ∉ gs :=
        fun hc => hnot (List.mem_cons.mpr (Or.inr hc))
      have hids_acc : (acc.2.option_snapshots.map (fun r => r.id)).Nodup := by
        rw [map_id_eq_of_stripOrd hacc]
        exact hids
      have hindexid : ∀ (j : ℕ) (hj : j < acc.2.option_snapshots.length)
          (hj2 : j < (acc.2.option_snapshots.map (fun r => r.id)).length),
          (acc.2.option_snapshots.map (fun r => r.id)).get ⟨j, hj2⟩ =
            (acc.2.option_snapshots.get ⟨j, hj⟩).id := by
        intro j hj hj2
        simp [List.get_eq_getElem, List.getElem_map]
      have huntouched1 : s1.2.option_snapshots.get ⟨i, hlen_s1⟩ =
          acc.2.option_snapshots.get ⟨i, ha⟩ := by
        refine foldl_apply_update_get_untouched _ _ i ha hlen_s1 ?_
        intro u hu huid
        obtain ⟨r', hr'mem, hr'id⟩ := group_updates_id_mem g.2.2 _ u hu
        rcases List.mem_filter.mp hr'mem with ⟨hr'rows, hr'key⟩
        obtain ⟨⟨k, hk⟩, hkget⟩ := List.get_of_mem hr'rows
        have hklen : k < (acc.2.option_snapshots.map (fun r => r.id)).length := by
          simpa using hk
        have hilen : i < (acc.2.option_snapshots.map (fun r => r.id)).length := by
          simpa using ha
        have hid_eq : (acc.2.option_snapshots.map (fun r => r.id)).get ⟨k, hklen⟩ =
            (acc.2.option_snapshots.map (fun r => r.id)).get ⟨i, hilen⟩ := by
          rw [hindexid k hk hklen, hindexid i ha hilen, hkget, hr'id, huid]
        have hfin : (⟨k, hklen⟩ : Fin _) = ⟨i, hilen⟩ :=
          (List.Nodup.get_inj_iff hids_acc).mp hid_eq
        have hk_i : k = i := by
          have h := congrArg Fin.val hfin
          simpa using h
        have hr'eq : r' = acc.2.option_snapshots.get ⟨i, ha⟩ := by
          rw [← hkget]
          congr 1
          exact Fin.mk_eq_mk.mpr hk_i
        have hkeyg : snap_group_key (acc.2.option_snapshots.get ⟨i, ha⟩) = g := by
          rw [← hr'eq]
          exact of_decide_eq_true hr'key
        exact hne (hkey_acc.symm.trans hkeyg)
      exact ((ihpt i h0 hlen_s1 hf').2 hnot').trans huntouched1

theorem migrate_ordinal_map_stripOrd (st0 : DBState)
    (hsize : ∀ r ∈ st0.option_snapshots,
      ((st0.option_snapshots.filter
        (fun x => decide (snap_group_key x = snap_group_key r))).length ≤ 10))
    (hids : (st0.option_snapshots.map (fun r => r.id)).Nodup) :
    (migrate_ordinal_positions st0).2.option_snapshots.map stripOrd =
      st0.option_snapshots.map stripOrd := by
  by_cases h : (st0.option_snapshots.filter (fun r => r.ordinal_position.isNone)).length = 0
  · simp only [migrate_ordinal_positions, if_pos h]
  · simp only [migrate_ordinal_positions, if_neg h]
    exact (ordinal_fold_props st0 hsize hids _ (0, st0) rfl).1

theorem migrate_ordinal_all_some (st0 : DBState)
    (hsize : ∀ r ∈ st0.option_snapshots,
      ((st0.option_snapshots.filter
        (fun x => decide (snap_group_key x = snap_group_key r))).length ≤ 10))
    (hids : (st0.option_snapshots.map (fun r => r.id)).Nodup) :
    ∀ r ∈ (migrate_ordinal_positions st0).2.option_snapshots,
      (r.ordinal_position).isSome := by
  by_cases h : (st0.option_snapshots.filter (fun r => r.ordinal_position.isNone)).length = 0
  · simp only [migrate_ordinal_positions, if_pos h]
    intro r hr
    have hnil := List.length_eq_zero.mp h
    have hni := List.filter_eq_nil_iff.mp hnil r hr
    cases ho : r.ordinal_position with
    | none => exact absurd (by simp [ho]) hni
    | some v => simp
  · simp only [migrate_ordinal_positions, if_neg h]
    intro r hr
    obtain ⟨⟨i, hf⟩, hget⟩ := List.get_of_mem hr
    obtain ⟨hshape, hpt⟩ := ordinal_fold_props st0 hsize hids
      (((st0.option_snapshots.filter (fun r => r.ordinal_position.isNone)).map
        snap_group_key).dedup) (0, st0) rfl
    have h0 : i < st0.option_snapshots.length := by
      have hlen := congrArg List.length hshape
      simp only [List.length_map] at hlen
      omega
    by_cases hcase : ((st0.option_snapshots.get ⟨i, h0⟩).ordinal_position).isSome = true
    · have hres := (hpt i h0 h0 hf).1 (Or.inr hcase)
      rw [hget] at hres
      exact hres
    · have hnone : (st0.option_snapshots.get ⟨i, h0⟩).ordinal_position = none :=
        Option.not_isSome_iff_eq_none.mp (by simpa using hcase)
      have hmemnull : st0.option_snapshots.get ⟨i, h0⟩ ∈
          st0.option_snapshots.filter (fun r => r.ordinal_position.isNone) :=
        List.mem_filter.mpr ⟨List.get_mem _ _ _, by simpa using hnone⟩
      have hkeymem : snap_group_key (st0.option_snapshots.get ⟨i, h0⟩) ∈
          ((st0.option_snapshots.filter (fun r => r.ordinal_position.isNone)).map
            snap_group_key).dedup :=
        List.mem_dedup.mpr (List.mem_map_of_mem _ hmemnull)
      have hres := (hpt i h0 h0 hf).1 (Or.inl hkeymem)
      rw [hget] at hres
      exact hres

theorem migrate_ordinal_noop (st1 : DBState)
    (hall : ∀ r ∈ st1.option_snapshots, (r.ordinal_position).isSome) :
    migrate_ordinal_positions st1 = (0, st1) := by
  have hfilter : st1.option_snapshots.filter (fun r => r.ordinal_position.isNone) = [] := by
    rw [List.filter_eq_nil_iff]
    intro a ha
    have hs := hall a ha
    cases ho : a.ordinal_position with
    | none => rw [ho] at hs; exact absurd hs (by simp)
    | some v => simp [ho]
  simp [migrate_ordinal_positions, hfilter]

theorem backfill_time_id (r : SnapRow) : (backfill_time r).id = r.id := by
  unfold backfill_time
  split <;> rfl

theorem backfill_time_key (r : SnapRow) :
    snap_group_key (backfill_time r) = snap_group_key r := by
  unfold backfill_time
  split <;> rfl

theorem backfill_time_ord (r : SnapRow) :
    (backfill_time r).ordinal_position = r.ordinal_position := by
  unfold backfill_time
  split <;> rfl

theorem backfill_time_both_some (r : SnapRow) :
    ((backfill_time r).day_of_week).isSome ∧ ((backfill_time r).time_slot).isSome := by
  unfold backfill_time needs_time_metadata
  cases hd : r.day_of_week <;> cases ht : r.time_slot <;> simp [hd, ht]

theorem backfill_time_eq_self (r : SnapRow)
    (h1 : (r.day_of_week).isSome) (h2 : (r.time_slot).isSome) : backfill_time r = r := by
  have hc : needs_time_metadata r = false := by
    rcases Option.isSome_iff_exists.mp h1 with ⟨v1, e1⟩
    rcases Option.isSome_iff_exists.mp h2 with ⟨v2, e2⟩
    simp [needs_time_metadata, e1, e2]
  unfold backfill_time
  rw [hc]
  simp

theorem migrate_time_rows (st : DBState) :
    (migrate_time_metadata st).2.option_snapshots =
      st.option_snapshots.map backfill_time := rfl

theorem migrate_time_noop (st1 : DBState)
    (hall : ∀ r ∈ st1.option_snapshots, (r.day_of_week).isSome ∧ (r.time_slot).isSome) :
    migrate_time_metadata st1 = (0, st1) := by
  have hneeds : ∀ r ∈ st1.option_snapshots, needs_time_metadata r = false := by
    intro r hr
    obtain ⟨h1, h2⟩ := hall r hr
    rcases Option.isSome_iff_exists.mp h1 with ⟨v1, e1⟩
    rcases Option.isSome_iff_exists.mp h2 with ⟨v2, e2⟩
    simp [needs_time_metadata, e1, e2]
  have hfilter : st1.option_snapshots.filter needs_time_metadata = [] :=
    List.filter_eq_nil_iff.mpr (fun a ha => by simp [hneeds a ha])
  have hmap : st1.option_snapshots.map backfill_time = st1.option_snapshots := by
    have hcongr : st1.option_snapshots.map backfill_time = st1.option_snapshots.map id := by
      refine List.map_congr_left (fun a ha => ?_)
      have hc := hneeds a ha
      unfold backfill_time
      rw [hc]
      simp
    rw [hcongr, List.map_id]
  unfold migrate_time_metadata
  rw [hfilter, hmap]
  rfl

theorem migrate_time_sizes (st : DBState)
    (hsize : ∀ r ∈ st.option_snapshots,
      ((st.option_snapshots.filter
        (fun x => decide (snap_group_key x = snap_group_key r))).length ≤ 10)) :
    ∀ r ∈ (migrate_time_metadata st).2.option_snapshots,
      (((migrate_time_metadata st).2.option_snapshots.filter
        (fun x => decide (snap_group_key x = snap_group_key r))).length ≤ 10) := by
  rw [migrate_time_rows]
  intro r hr
  rcases List.mem_map.mp hr with ⟨r0, hr0, rfl⟩
  have hlen : ((st.option_snapshots.map backfill_time).filter
      (fun x => decide (snap_group_key x = snap_group_key (backfill_time r0)))).length =
      (st.option_snapshots.filter
        (fun x => decide (snap_group_key x = snap_group_key r0))).length := by
    rw [List.filter_map, List.length_map]
    refine congrArg List.length (List.filter_congr (fun x _ => ?_))
    have h1 := backfill_time_key x
    have h2 := backfill_time_key r0
    simp [Function.comp, h1, h2]
  rw [hlen]
  exact hsize r0 hr0

theorem migrate_time_ids (st : DBState)
    (hids : (st.option_snapshots.map (fun r => r.id)).Nodup) :
    ((migrate_time_metadata st).2.option_snapshots.map (fun r => r.id)).Nodup := by
  rw [migrate_time_rows, List.map_map]
  have hcomp : ((fun r : SnapRow => r.id) ∘ backfill_time) = (fun r : SnapRow => r.id) := by
    funext r
    exact backfill_time_id r
  rw [hcomp]
  exact hids

theorem migrate_pipeline_dow_slot (st : DBState)
    (hsize : ∀ r ∈ st.option_snapshots,
      ((st.option_snapshots.filter
        (fun x => decide (snap_group_key x = snap_group_key r))).length ≤ 10))
    (hids : (st.option_snapshots.map (fun r => r.id)).Nodup) :
    ∀ r ∈ (migrate_ordinal_positions (migrate_time_metadata st).2).2.option_snapshots,
      (r.day_of_week).isSome ∧ (r.time_slot).isSome := by
  intro r hr
  have hsize0 := migrate_time_sizes st hsize
  have hids0 := migrate_time_ids st hids
  have hshape := migrate_ordinal_map_stripOrd (migrate_time_metadata st).2 hsize0 hids0
  have hmem2 : stripOrd r ∈ (migrate_time_metadata st).2.option_snapshots.map stripOrd := by
    rw [← hshape]
    exact List.mem_map_of_mem _ hr
  rcases List.mem_map.mp hmem2 with ⟨r0, hr0, heq⟩
  have hr0mem : r0 ∈ st.option_snapshots.map backfill_time := by
    rw [← migrate_time_rows]
    exact hr0
  rcases List.mem_map.mp hr0mem with ⟨r1, _, heq1⟩
  obtain ⟨hb1, hb2⟩ := backfill_time_both_some r1
  have hdow : r.day_of_week = (backfill_time r1).day_of_week := by
    calc r.day_of_week = (stripOrd r).day_of_week := rfl
      _ = (stripOrd r0).day_of_week := by rw [← heq]
      _ = r0.day_of_week := rfl
      _ = (backfill_time r1).day_of_week := by rw [heq1]
  have hslot : r.time_slot = (backfill_time r1).time_slot := by
    calc r.time_slot = (stripOrd r).time_slot := rfl
      _ = (stripOrd r0).time_slot := by rw [← heq]
      _ = r0.time_slot := rfl
      _ = (backfill_time r1).time_slot := by rw [heq1]
  exact ⟨by rw [hdow]; exact hb1, by rw [hslot]; exact hb2⟩

/-- Claim C4, amended: provided snapshot rowids are unique and every
(timestamp, symbol, option_type) group holds at most 10 rows, running the
two backfill migrations a second time updates zero rows (both migrations
report count 0 and leave the store unchanged); and a row whose bucket
fields are all populated and whose group contains no row missing an
ordinal position is never modified by the pipeline. Without the 10-row
bound the second ordinal run re-updates rows, and a populated row sharing
a group with a NULL-ordinal row can have its ordinal reassigned. -/
theorem backfill_idempotent (st : DBState)
    (hids : (st.option_snapshots.map (fun r => r.id)).Nodup)
    (hsize : ∀ r ∈ st.option_snapshots,
      ((st.option_snapshots.filter
        (fun x => decide (snap_group_key x = snap_group_key r))).length ≤ 10)) :
    migrate_time_metadata (migrate_ordinal_positions (migrate_time_metadata st).2).2 =
      (0, (migrate_ordinal_positions (migrate_time_metadata st).2).2) ∧
    migrate_ordinal_positions (migrate_ordinal_positions (migrate_time_metadata st).2).2 =
      (0, (migrate_ordinal_positions (migrate_time_metadata st).2).2) ∧
    (∀ (i : ℕ) (h : i < st.option_snapshots.length)
        (hf : i < (migrate_ordinal_positions
          (migrate_time_metadata st).2).2.option_snapshots.length),
      ((st.option_snapshots.get ⟨i, h⟩).day_of_week).isSome →
      ((st.option_snapshots.get ⟨i, h⟩).time_slot).isSome →
      ((st.option_snapshots.get ⟨i, h⟩).ordinal_position).isSome →
      (∀ r' ∈ st.option_snapshots,
        snap_group_key r' = snap_group_key (st.option_snapshots.get ⟨i, h⟩) →
        (r'.ordinal_position).isSome) →
      (migrate_ordinal_positions
        (migrate_time_metadata st).2).2.option_snapshots.get ⟨i, hf⟩ =
        st.option_snapshots.get ⟨i, h⟩) := by
  have hsize0 := migrate_time_sizes st hsize
  have hids0 := migrate_time_ids st hids
  have hdowslot := migrate_pipeline_dow_slot st hsize hids
  have hord := migrate_ordinal_all_some (migrate_time_metadata st).2 hsize0 hids0
  refine ⟨migrate_time_noop _ hdowslot, migrate_ordinal_noop _ hord, ?_⟩
  intro i h hf hdow hslot hiord hclean
  have hlen0 : (migrate_time_metadata st).2.option_snapshots.length =
      st.option_snapshots.length := by
    rw [migrate_time_rows, List.length_map]
  have h0 : i < (migrate_time_metadata st).2.option_snapshots.length := by omega
  have hmaplen : i < (st.option_snapshots.map backfill_time).length := by
    rw [List.length_map]
    exact h
  have hget0 : (migrate_time_metadata st).2.option_snapshots.get ⟨i, h0⟩ =
      st.option_snapshots.get ⟨i, h⟩ := by
    have e1 : (migrate_time_metadata st).2.option_snapshots.get ⟨i, h0⟩ =
        (st.option_snapshots.map backfill_time).get ⟨i, hmaplen⟩ := by
      rw [List.get_eq_getElem, List.get_eq_getElem]
      exact List.getElem_of_eq (migrate_time_rows st) h0
    have e2 : (st.option_snapshots.map backfill_time).get ⟨i, hmaplen⟩ =
        backfill_time (st.option_snapshots.get ⟨i, h⟩) := by
      rw [List.get_eq_getElem, List.getElem_map, List.get_eq_getElem]
    rw [e1, e2]
    exact backfill_time_eq_self _ hdow hslot
  by_cases hn : ((migrate_time_metadata st).2.option_snapshots.filter
      (fun r => r.ordinal_position.isNone)).length = 0
  · have hnoop : migrate_ordinal_positions (migrate_time_metadata st).2 =
        (0, (migrate_time_metadata st).2) := by
      simp only [migrate_ordinal_positions, if_pos hn]
    have hrows : (migrate_ordinal_positions (migrate_time_metadata st).2).2.option_snapshots =
        (migrate_time_metadata st).2.option_snapshots := by
      rw [hnoop]
    calc (migrate_ordinal_positions (migrate_time_metadata st).2).2.option_snapshots.get ⟨i, hf⟩
        = (migrate_time_metadata st).2.option_snapshots.get ⟨i, h0⟩ := by
          rw [List.get_eq_getElem, List.get_eq_getElem]
          exact List.getElem_of_eq hrows hf
      _ = st.option_snapshots.get ⟨i, h⟩ := hget0
  · obtain ⟨hshape, hpt⟩ := ordinal_fold_props (migrate_time_metadata st).2 hsize0 hids0
      ((((migrate_time_metadata st).2.option_snapshots.filter
        (fun r => r.ordinal_position.isNone)).map snap_group_key).dedup)
      (0, (migrate_time_metadata st).2) rfl
    have hnotmem : snap_group_key ((migrate_time_metadata st).2.option_snapshots.get ⟨i, h0⟩) ∉
        (((migrate_time_metadata st).2.option_snapshots.filter
          (fun r => r.ordinal_position.isNone)).map snap_group_key).dedup := by
      intro hc
      rcases List.mem_map.mp (List.mem_dedup.mp hc) with ⟨r0, hr0, hkeyeq⟩
      rcases List.mem_filter.mp hr0 with ⟨hr0rows, hr0none⟩
      have hr0mem : r0 ∈ st.option_snapshots.map backfill_time := by
        rw [← migrate_time_rows]
        exact hr0rows
      rcases List.mem_map.mp hr0mem with ⟨r1, hr1, hr1eq⟩
      have hordr1 : r1.ordinal_position.isNone = true := by
        rw [← backfill_time_ord r1, hr1eq]
        simpa using hr0none
      have hkey1 : snap_group_key r1 = snap_group_key (st.option_snapshots.get ⟨i, h⟩) := by
        rw [← backfill_time_key r1, hr1eq, hkeyeq, hget0]
      have hcontra := hclean r1 hr1 hkey1
      rw [Option.isNone_iff_eq_none.mp hordr1] at hcontra
      exact absurd hcontra (by simp)
    have hrows2 : (migrate_ordinal_positions (migrate_time_metadata st).2).2.option_snapshots =
        ((((migrate_time_metadata st).2.option_snapshots.filter
          (fun r => r.ordinal_position.isNone)).map snap_group_key).dedup.foldl
          ordinal_step (0, (migrate_time_metadata st).2)).2.option_snapshots := by
      simp only [migrate_ordinal_positions, if_neg hn]
    have hf2 : i < ((((migrate_time_metadata st).2.option_snapshots.filter
        (fun r => r.ordinal_position.isNone)).map snap_group_key).dedup.foldl
        ordinal_step (0, (migrate_time_metadata st).2)).2.option_snapshots.length := by
      have hl := congrArg List.length hrows2
      omega
    calc (migrate_ordinal_positions (migrate_time_metadata st).2).2.option_snapshots.get ⟨i, hf⟩
        = ((((migrate_time_metadata st).2.option_snapshots.filter
            (fun r => r.ordinal_position.isNone)).map snap_group_key).dedup.foldl
            ordinal_step (0, (migrate_time_metadata st).2)).2.option_snapshots.get ⟨i, hf2⟩ := by
          rw [List.get_eq_getElem, List.get_eq_getElem]
          exact List.getElem_of_eq hrows2 hf
      _ = (migrate_time_metadata st).2.option_snapshots.get ⟨i, h0⟩ :=
          (hpt i h0 h0 hf2).2 hnotmem
      _ = st.option_snapshots.get ⟨i, h⟩ := hget0

/-- One of eleven legacy rows sharing a single capture group, strikes in
ascending order of the row index, all with NULL ordinal position. -/
def C4mk (i : ℕ) : SnapRow :=
  { id := i, timestamp := 0, symbol := "APP", stock_price := 10,
    expiration_date := "2025-01-03", dte := 0, option_type := "CALL", strike := (i : ℚ),
    strike_distance := 1, mid_price := none, last_price := none, bid := none,
    ask := some 1, volume := none, open_interest := none, day_of_week := some 3,
    time_slot := some "09:35", ordinal_position := none }

def C4big : DBState :=
  { next_id := 11, option_snapshots := (List.range 11).map C4mk, weekly_averages := [],
    earnings_calendar := [] }

/-- Counterexample to claim C4 as stated: with eleven snapshots in one
(timestamp, symbol, option_type) group the row ranked 11th keeps a NULL
ordinal position forever, so the second run of the ordinal backfill
re-selects the group and reports 10 updated rows, not 0. -/
theorem backfill_second_run_counterexample :
    (migrate_ordinal_positions
      (migrate_time_metadata
        (migrate_ordinal_positions (migrate_time_metadata C4big).2).2).2).1 = 10 ∧
    ¬(migrate_ordinal_positions
      (migrate_time_metadata
        (migrate_ordinal_positions (migrate_time_metadata C4big).2).2).2).1 = 0 := by
  constructor <;> decide

def C4wa : SnapRow :=
  { id := 0, timestamp := 0, symbol := "APP", stock_price := 10,
    expiration_date := "2025-01-03", dte := 0, option_type := "CALL", strike := 11,
    strike_distance := 1, mid_price := none, last_price := none, bid := none,
    ask := some 1, volume := none, open_interest := none, day_of_week := none,
    time_slot := none, ordinal_position := none }

def C4wb : SnapRow :=
  { C4wa with
    id := 1, timestamp := 99, day_of_week := some 3
    time_slot := some "09:35", ordinal_position := some 1 }

def C4wst : DBState :=
  { next_id := 2, option_snapshots := [C4wa, C4wb], weekly_averages := [],
    earnings_calendar := [] }

/-- Witness for the amended C4 on a concrete two-row store with unique ids
and singleton groups: the second time-metadata run is a no-op. -/
theorem backfill_idempotent_witness :
    (C4wst.option_snapshots.map (fun r => r.id)).Nodup ∧
    migrate_time_metadata (migrate_ordinal_positions (migrate_time_metadata C4wst).2).2 =
      (0, (migrate_ordinal_positions (migrate_time_metadata C4wst).2).2) :=
  have h1 : (C4wst.option_snapshots.map (fun r => r.id)).Nodup := by decide
  have h2 : ∀ r ∈ C4wst.option_snapshots,
      ((C4wst.option_snapshots.filter
        (fun x => decide (snap_group_key x = snap_group_key r))).length ≤ 10) := by decide
  ⟨h1, (backfill_idempotent C4wst h1 h2).1⟩

/-- Witness for C6: the concrete three-strike scenario yields the maximum
boost 0.3 rather than a sum. -/
theorem evaluate_strikes_spec_witness :
    (evaluate_strikes C6st C6strikes 10 "CALL" 0 "APP" 575).2 = 3/10 :=
  (evaluate_strikes_spec C6st C6strikes 10 "CALL" 0 "APP" 575).2.2.2.2.1

def C8old : SnapRow :=
  { id := 0, timestamp := 100, symbol := "APP", stock_price := 10,
    expiration_date := "2025-01-03", dte := 0, option_type := "CALL", strike := 11,
    strike_distance := 1, mid_price := none, last_price := none, bid := none,
    ask := some 1, volume := none, open_interest := none, day_of_week := some 3,
    time_slot := some "09:35", ordinal_position := some 1 }

def C8avg (c : ℤ) : AvgRow :=
  { calculated_at := c, symbol := "APP", option_type := "CALL", strike_distance := 0,
    dte := 0, avg_mid_price := some 1, sample_count := 1, min_price := some 1,
    max_price := some 1, avg_ask_price := some 1, day_of_week := some 3,
    time_slot := some "09:35", ordinal_position := some 1 }

def C8st : DBState :=
  { next_id := 1, option_snapshots := [C8old],
    weekly_averages := [C8avg 1, C8avg 2, C8avg 3], earnings_calendar := [] }

/-- Witness for C8 at a concrete store with three calculation runs: the
snapshot table is exactly the young-rows filter, and the most recent run's
rows survive. -/
theorem cleanup_old_data_spec_witness :
    (cleanup_old_data C8st 6 20000000).2.option_snapshots =
      C8st.option_snapshots.filter
        (fun r => !(decide (r.timestamp < 20000000 - 6 * 7 * minutesPerDay))) ∧
    C8avg 3 ∈ (cleanup_old_data C8st 6 20000000).2.weekly_averages :=
  have h3 : C8avg 3 ∈ C8st.weekly_averages ∧
      (((C8st.weekly_averages.map (fun x => x.calculated_at)).dedup.filter
        (fun w => decide ((C8avg 3).calculated_at < w))).length < 2) := by decide
  ⟨(cleanup_old_data_spec C8st 6 20000000).1,
    ((cleanup_old_data_spec C8st 6 20000000).2.2 (C8avg 3)).mpr h3⟩
